import Mathlib

/-!
# TS2Go core — shallow embedding and verification

This file embeds, in Lean 4, the core of the `ts2go` transpiler:

* the IR data model (`src/ir/nodes.ts` is not part of the sources we hold,
  so the node shapes are reconstructed from their uses in
  `src/ir/transformer.ts` and `src/optimizer/optimizer.ts` and from the
  data-model table of the specification);
* the dead-code-elimination pass and its `SymbolCollector`
  (`src/optimizer/optimizer.ts`, `DeadCodeEliminationPass`);
* the Go code generator (`src/optimizer/optimizer.ts`, `GoCodeGenerator`),
  ported method by method with its mutable state made explicit;
* the TypeScript-AST-to-IR transformer (`src/ir/transformer.ts`).

JavaScript strings, `Set`, and `Map` are modelled by `String`,
duplicate-free `List String`, and association lists in insertion order.
JavaScript numbers are modelled by a printed representation plus an
integrality flag (`JsNum`), which is all the generator inspects.
-/

set_option maxHeartbeats 4000000
set_option maxRecDepth 10000

namespace TS2Go

/-! ## JavaScript string helpers -/

/-- `str.charAt(0).toUpperCase() + str.slice(1)` (the generator's `capitalize`). -/
def jsCapitalize (s : String) : String :=
  match s.data with
  | [] => ""
  | c :: cs => String.mk (c.toUpper :: cs)

/-- `str.toLowerCase()`. -/
def jsToLower (s : String) : String :=
  String.mk (s.data.map Char.toLower)

/-- `str.charAt(0)` as a string (empty for the empty string). -/
def jsCharAt0 (s : String) : String :=
  match s.data with
  | [] => ""
  | c :: _ => String.mk [c]

/-- `str.padEnd(width)` — pad with spaces on the right up to `width`. -/
def jsPadEnd (s : String) (width : Nat) : String :=
  s ++ String.mk (List.replicate (width - s.length) ' ')

/-- `str.repeat(n)`. -/
def jsRepeat (s : String) (n : Nat) : String :=
  String.join (List.replicate n s)

/-- Is `pat` a prefix of `cs`? -/
def charsPrefix : List Char → List Char → Bool
  | [], _ => true
  | _ :: _, [] => false
  | p :: ps, c :: cs => p == c && charsPrefix ps cs

/-- Does `pat` match anywhere in `cs`? -/
def charsIncludes (pat : List Char) : List Char → Bool
  | [] => charsPrefix pat []
  | c :: cs => charsPrefix pat (c :: cs) || charsIncludes pat cs

/-- Number of match positions of a (non-empty, never self-overlapping)
pattern in `cs`; for the patterns the generator counts this equals the
`split`-based count. -/
def occCountAux (pat : List Char) : List Char → Nat
  | [] => 0
  | c :: cs => (if charsPrefix pat (c :: cs) then 1 else 0) + occCountAux pat cs

/-- Number of occurrences of a (non-empty) pattern in `s`. -/
def occCount (s pat : String) : Nat :=
  occCountAux pat.data s.data

/-- `str.includes(pat)`. -/
def jsIncludes (s pat : String) : Bool :=
  charsIncludes pat.data s.data

/-- Global find-and-replace over character lists; the `Nat` argument is a
step budget always called with the input length, which bounds the number of
steps. -/
def replaceAllAux (pat repl : List Char) : Nat → List Char → List Char
  | _, [] => []
  | 0, cs => cs
  | n + 1, c :: cs =>
    if !pat.isEmpty && charsPrefix pat (c :: cs) then
      repl ++ replaceAllAux pat repl n (cs.drop (pat.length - 1))
    else c :: replaceAllAux pat repl n cs

/-- `str.replace(/pat/g, repl)` for a plain pattern. -/
def jsReplaceAll (s pat repl : String) : String :=
  String.mk (replaceAllAux pat.data repl.data s.data.length s.data)

/-- A JavaScript whitespace character as `trim` sees it. -/
def isJsWs (c : Char) : Bool :=
  c == ' ' || c == '\n' || c == '\t' || c == '\r'

/-- `str.trim()`. -/
def jsTrim (s : String) : String :=
  String.mk (((s.data.dropWhile isJsWs).reverse.dropWhile isJsWs).reverse)

/-- `str.startsWith(pre)`. -/
def jsStartsWith (s pre : String) : Bool :=
  charsPrefix pre.data s.data

/-- `str.endsWith(suf)`. -/
def jsEndsWith (s suf : String) : Bool :=
  charsPrefix suf.data.reverse s.data.reverse

/-- `str.slice(n)` for ASCII strings (`String.drop` by characters). -/
def jsDrop (s : String) (n : Nat) : String :=
  String.mk (s.data.drop n)

/-- Case-insensitive `regex.test` for an alternation of plain words,
such as `/any|unknown/i.test(name)`. -/
def jsTestAnyI (pats : List String) (s : String) : Bool :=
  pats.any (fun p => jsIncludes (jsToLower s) (jsToLower p))

/-- A JavaScript `\w` word character: letters, digits, underscore. -/
def isWordChar (c : Char) : Bool :=
  c.isAlpha || c.isDigit || c == '_'

/-- A character of the class `[\w\[\]{}]` used by the generator's
variable-grouping regexes. -/
def isVarTypeChar (c : Char) : Bool :=
  isWordChar c || c == '[' || c == ']' || c == '{' || c == '}'

/-- Longest prefix of `cs` of characters satisfying `p`, with the rest. -/
def spanChars (p : Char → Bool) : List Char → List Char × List Char
  | [] => ([], [])
  | c :: cs =>
    if p c then
      let (run, rest) := spanChars p cs
      (c :: run, rest)
    else ([], c :: cs)

/-- Leftmost match of `/var (\w+) ([\w\[\]{}]+)?\s*=?\s*(.+)?/` against the
character list, returning groups 1 and 2.  Only the two captured groups the
generator reads are produced; the trailing `\s*=?\s*(.+)?` always matches. -/
def findVarMatchAux : List Char → Option (String × Option String)
  | [] => none
  | c :: cs =>
    match
      (match c, cs with
       | 'v', 'a' :: 'r' :: ' ' :: rest =>
         let (nameRun, rest1) := spanChars isWordChar rest
         (match nameRun, rest1 with
          | [], _ => none
          | _, ' ' :: rest2 =>
            let (tyRun, _) := spanChars isVarTypeChar rest2
            some (String.mk nameRun,
              if tyRun.isEmpty then none else some (String.mk tyRun))
          | _, _ => none)
       | _, _ => none) with
    | some r => some r
    | none => findVarMatchAux cs

/-- `code.match(/var (\w+) ([\w\[\]{}]+)?\s*=?\s*(.+)?/)`, keeping the two
captured groups used by the generator. -/
def jsMatchVar (s : String) : Option (String × Option String) :=
  findVarMatchAux s.data

/-- Whether `/var \w+ [\w\[\]{}]+ =/` matches anywhere in the string. -/
def matchesTypedAssignAux : List Char → Bool
  | [] => false
  | c :: cs =>
    (match c, cs with
     | 'v', 'a' :: 'r' :: ' ' :: rest =>
       let (nameRun, rest1) := spanChars isWordChar rest
       (match nameRun, rest1 with
        | [], _ => false
        | _, ' ' :: rest2 =>
          let (tyRun, rest3) := spanChars isVarTypeChar rest2
          (match tyRun, rest3 with
           | [], _ => false
           | _, ' ' :: '=' :: _ => true
           | _, _ => false)
        | _, _ => false)
     | _, _ => false)
    || matchesTypedAssignAux cs

/-- `code.match(/var \w+ [\w\[\]{}]+ =/)` viewed as a Boolean test. -/
def jsMatchesTypedAssign (s : String) : Bool :=
  matchesTypedAssignAux s.data

/-- A JavaScript `Set` of strings: membership-guarded insertion. -/
def setAdd (l : List String) (x : String) : List String :=
  if l.contains x then l else l ++ [x]

/-- A JavaScript `Map` keyed by strings: `map.set` overwrites in place,
keeping first-insertion order. -/
def mapSet (m : List (String × String)) (k v : String) : List (String × String) :=
  if m.any (fun p => p.1 == k) then
    m.map (fun p => if p.1 == k then (k, v) else p)
  else m ++ [(k, v)]

/-- `map.get` for an association list. -/
def mapGet (m : List (String × String)) (k : String) : Option String :=
  (m.find? (fun p => p.1 == k)).map (·.2)

/-! ## Source locations and JavaScript values -/

/-- A source location; the core only threads these through, never inspects
them, so the representation is a plain record. -/
structure SourceLocation where
  file : String := ""
  line : Nat := 0
  column : Nat := 0
deriving Repr, DecidableEq

/-- A JavaScript number as the generator observes it: its printed form
(`String(value)`) and whether `Number.isInteger(value)` holds. -/
structure JsNum where
  repr : String
  isInteger : Bool
deriving Repr, DecidableEq

/-- A JavaScript value stored in a `Literal` or `LiteralType` node. -/
inductive JsValue where
  | vNull
  | vUndefined
  | vBool (b : Bool)
  | vNum (n : JsNum)
  | vStr (s : String)
deriving Repr, DecidableEq

/-- `String(value)` as used by `visitLiteral` after the null/string cases. -/
def JsValue.jsString : JsValue → String
  | .vNull => "null"
  | .vUndefined => "undefined"
  | .vBool true => "true"
  | .vBool false => "false"
  | .vNum n => n.repr
  | .vStr s => s

/-- A declaration modifier (`ir.Modifier`), identified by its `kind` string. -/
structure Modifier where
  kind : String
deriving Repr, DecidableEq

/-! ## The IR node family

Modelled from the spec: `src/ir/nodes.ts` is not among the sources held
here, so the constructors below reproduce the data-model table of §3 of the
specification together with every field accessed by `transformer.ts` and
`optimizer.ts`.  `PropertyMember.metadata` is modelled by its two queried
keys (`isConstructorParam`, `isOptional`). -/

mutual

inductive IRType where
  | primitiveType (kind : String) (loc : Option SourceLocation)
  | arrayType (elementType : IRType) (loc : Option SourceLocation)
  | tupleType (elements : List IRType) (loc : Option SourceLocation)
  | objectType (properties : List PropertySignature)
      (indexSignature : Option IndexSignature) (loc : Option SourceLocation)
  | functionType (parameters : List Parameter) (returnType : IRType)
      (typeParameters : Option (List TypeParameter)) (isAsync : Bool)
      (loc : Option SourceLocation)
  | unionType (types : List IRType) (loc : Option SourceLocation)
  | intersectionType (types : List IRType) (loc : Option SourceLocation)
  | typeReference (name : String) (typeArguments : Option (List IRType))
      (loc : Option SourceLocation)
  | literalType (value : JsValue) (loc : Option SourceLocation)

inductive PropertySignature where
  | mk (name : String) (type : IRType) (optional : Bool) (readonly : Bool)
      (loc : Option SourceLocation)

inductive IndexSignature where
  | mk (keyType : IRType) (valueType : IRType) (loc : Option SourceLocation)

inductive Parameter where
  | mk (name : String) (type : Option IRType) (optional : Bool)
      (defaultValue : Option Expr) (rest : Bool) (loc : Option SourceLocation)

inductive TypeParameter where
  | mk (name : String) (constraint : Option IRType) (dflt : Option IRType)
      (loc : Option SourceLocation)

inductive Expr where
  | identifier (name : String) (loc : Option SourceLocation)
  | literal (value : JsValue) (raw : String) (loc : Option SourceLocation)
  | arrayExpression (elements : List (Option Expr)) (inferredType : Option IRType)
      (loc : Option SourceLocation)
  | objectExpression (properties : List Property) (loc : Option SourceLocation)
  | functionExpression (parameters : List Parameter) (body : BlockStmt)
      (returnType : Option IRType) (typeParameters : Option (List TypeParameter))
      (isAsync : Bool) (name : Option String) (loc : Option SourceLocation)
  | arrowFunctionExpression (parameters : List Parameter) (body : ArrowBody)
      (returnType : Option IRType) (typeParameters : Option (List TypeParameter))
      (isAsync : Bool) (loc : Option SourceLocation)
  | callExpression (callee : Expr) (args : List Expr)
      (typeArguments : Option (List IRType)) (loc : Option SourceLocation)
  | memberExpression (object : Expr) (property : Expr) (computed : Bool)
      (optional : Bool) (loc : Option SourceLocation)
  | newExpression (callee : Expr) (args : List Expr)
      (typeArguments : Option (List IRType)) (loc : Option SourceLocation)
  | superExpression (args : List Expr) (loc : Option SourceLocation)
  | binaryExpression (op : String) (left : Expr) (right : Expr)
      (loc : Option SourceLocation)
  | unaryExpression (op : String) (argument : Expr) (isPrefixOp : Bool)
      (loc : Option SourceLocation)
  | assignmentExpression (op : String) (left : Expr) (right : Expr)
      (loc : Option SourceLocation)
  | conditionalExpression (test : Expr) (consequent : Expr) (alternate : Expr)
      (loc : Option SourceLocation)
  | awaitExpression (argument : Expr) (loc : Option SourceLocation)
  | spreadElement (argument : Expr) (loc : Option SourceLocation)
  | templateLiteral (quasis : List String) (expressions : List Expr)
      (loc : Option SourceLocation)

inductive ArrowBody where
  | expr (e : Expr)
  | block (b : BlockStmt)

inductive Property where
  | mk (key : Expr) (value : Expr) (shorthand : Bool) (computed : Bool)
      (loc : Option SourceLocation)

inductive BlockStmt where
  | mk (statements : List Stmt) (loc : Option SourceLocation)

inductive VariableDeclaration where
  | mk (name : String) (type : Option IRType) (initializer : Option Expr)
      (isConst : Bool) (modifiers : List Modifier) (loc : Option SourceLocation)

inductive ForInit where
  | decl (d : VariableDeclaration)
  | expr (e : Expr)

inductive CatchClause where
  | mk (body : BlockStmt) (param : Option Parameter) (loc : Option SourceLocation)

inductive SwitchCase where
  | mk (consequent : List Stmt) (test : Option Expr) (loc : Option SourceLocation)

inductive ClassMember where
  | propertyMember (name : String) (type : Option IRType) (initializer : Option Expr)
      (modifiers : List Modifier) (metaIsConstructorParam : Bool)
      (metaIsOptional : Bool) (loc : Option SourceLocation)
  | methodMember (name : String) (parameters : List Parameter)
      (returnType : Option IRType) (body : Option BlockStmt)
      (typeParameters : Option (List TypeParameter)) (modifiers : List Modifier)
      (loc : Option SourceLocation)

inductive EnumMember where
  | mk (name : String) (value : Option Expr) (loc : Option SourceLocation)

inductive ImportSpecifier where
  | mk (imported : String) (localName : String) (isDefault : Bool)
      (isNamespace : Bool) (loc : Option SourceLocation)

inductive ImportDeclaration where
  | mk (specifiers : List ImportSpecifier) (source : String)
      (loc : Option SourceLocation)

inductive ExportSpecifier where
  | mk (exported : String) (localName : String) (loc : Option SourceLocation)

inductive ExportDeclaration where
  | mk (declaration : Option Stmt) (specifiers : List ExportSpecifier)
      (source : Option String) (isDefault : Bool) (loc : Option SourceLocation)

inductive Stmt where
  | variableDeclaration (v : VariableDeclaration)
  | functionDeclaration (name : String) (parameters : List Parameter)
      (returnType : Option IRType) (body : Option BlockStmt)
      (typeParameters : Option (List TypeParameter)) (modifiers : List Modifier)
      (loc : Option SourceLocation)
  | classDeclaration (name : String) (members : List ClassMember)
      (extendsClause : Option IRType) (implementsTypes : Option (List IRType))
      (typeParameters : Option (List TypeParameter)) (modifiers : List Modifier)
      (loc : Option SourceLocation)
  | interfaceDeclaration (name : String) (members : List PropertySignature)
      (extendsClause : Option (List IRType))
      (typeParameters : Option (List TypeParameter)) (modifiers : List Modifier)
      (loc : Option SourceLocation)
  | typeAliasDeclaration (name : String) (type : IRType)
      (typeParameters : Option (List TypeParameter)) (modifiers : List Modifier)
      (loc : Option SourceLocation)
  | enumDeclaration (name : String) (members : List EnumMember) (isConst : Bool)
      (modifiers : List Modifier) (loc : Option SourceLocation)
  | blockStatement (b : BlockStmt)
  | expressionStatement (expression : Expr) (loc : Option SourceLocation)
  | returnStatement (argument : Option Expr) (loc : Option SourceLocation)
  | ifStatement (test : Expr) (consequent : Stmt) (alternate : Option Stmt)
      (loc : Option SourceLocation)
  | whileStatement (test : Expr) (body : Stmt) (loc : Option SourceLocation)
  | forStatement (body : Stmt) (init : Option ForInit) (test : Option Expr)
      (update : Option Expr) (loc : Option SourceLocation)
  | forOfStatement (left : VariableDeclaration) (right : Expr) (body : Stmt)
      (loc : Option SourceLocation)
  | tryStatement (block : BlockStmt) (handler : Option CatchClause)
      (finalizer : Option BlockStmt) (loc : Option SourceLocation)
  | throwStatement (argument : Expr) (loc : Option SourceLocation)
  | switchStatement (discriminant : Expr) (cases : List SwitchCase)
      (loc : Option SourceLocation)
  | importDeclaration (d : ImportDeclaration)
  | exportDeclaration (d : ExportDeclaration)

end

/-- The root IR node per file (`ir.Module`). -/
structure Module where
  name : String
  path : String
  statements : List Stmt
  imports : List ImportDeclaration
  exports : List ExportDeclaration
  loc : Option SourceLocation

/-! ## Dead-code elimination (`DeadCodeEliminationPass`, `SymbolCollector`)

The collector accumulates the JavaScript `Set<string>` of used symbols; it
is threaded as a duplicate-free list.  Method coverage follows the source's
`SymbolCollector` exactly; in particular `visitObjectType` skips the index
signature, `visitParameter` and `visitPropertyMember` skip initializers,
and `visitMethodMember` skips the return type, just as in the source.
`superExpression` has no case in the source collector (its visitor file is
not among the held sources); its arguments are traversed like every other
child list. -/

mutual

def collectType : IRType → List String → List String
  | .primitiveType _ _, used => used
  | .arrayType elementType _, used => collectType elementType used
  | .tupleType elements _, used => collectTypeList elements used
  | .objectType properties _ _, used => collectPropSigList properties used
  | .functionType parameters returnType _ _ _, used =>
    collectType returnType (collectParamList parameters used)
  | .unionType types _, used => collectTypeList types used
  | .intersectionType types _, used => collectTypeList types used
  | .typeReference name typeArguments _, used =>
    (match typeArguments with
     | some args => collectTypeList args (setAdd used name)
     | none => setAdd used name)
  | .literalType _ _, used => used

def collectTypeList : List IRType → List String → List String
  | [], used => used
  | t :: ts, used => collectTypeList ts (collectType t used)

def collectPropSig : PropertySignature → List String → List String
  | .mk _ type _ _ _, used => collectType type used

def collectPropSigList : List PropertySignature → List String → List String
  | [], used => used
  | p :: ps, used => collectPropSigList ps (collectPropSig p used)

def collectParam : Parameter → List String → List String
  | .mk _ (some type) _ _ _ _, used => collectType type used
  | .mk _ none _ _ _ _, used => used

def collectParamList : List Parameter → List String → List String
  | [], used => used
  | p :: ps, used => collectParamList ps (collectParam p used)

def collectExpr : Expr → List String → List String
  | .identifier name _, used => setAdd used name
  | .literal _ _ _, used => used
  | .arrayExpression elements _ _, used => collectOptExprList elements used
  | .objectExpression properties _, used => collectPropertyList properties used
  | .functionExpression parameters body _ _ _ _ _, used =>
    collectBlock body (collectParamList parameters used)
  | .arrowFunctionExpression parameters body _ _ _ _, used =>
    (match body with
     | .expr e => collectExpr e (collectParamList parameters used)
     | .block b => collectBlock b (collectParamList parameters used))
  | .callExpression callee args _ _, used => collectExprList args (collectExpr callee used)
  | .memberExpression object property _ _ _, used =>
    collectExpr property (collectExpr object used)
  | .newExpression callee args _ _, used => collectExprList args (collectExpr callee used)
  | .superExpression args _, used => collectExprList args used
  | .binaryExpression _ left right _, used => collectExpr right (collectExpr left used)
  | .unaryExpression _ argument _ _, used => collectExpr argument used
  | .assignmentExpression _ left right _, used => collectExpr right (collectExpr left used)
  | .conditionalExpression test consequent alternate _, used =>
    collectExpr alternate (collectExpr consequent (collectExpr test used))
  | .awaitExpression argument _, used => collectExpr argument used
  | .spreadElement argument _, used => collectExpr argument used
  | .templateLiteral _ expressions _, used => collectExprList expressions used

def collectExprList : List Expr → List String → List String
  | [], used => used
  | e :: es, used => collectExprList es (collectExpr e used)

def collectOptExprList : List (Option Expr) → List String → List String
  | [], used => used
  | some e :: es, used => collectOptExprList es (collectExpr e used)
  | none :: es, used => collectOptExprList es used

def collectProperty : Property → List String → List String
  | .mk key value _ _ _, used => collectExpr value (collectExpr key used)

def collectPropertyList : List Property → List String → List String
  | [], used => used
  | p :: ps, used => collectPropertyList ps (collectProperty p used)

def collectBlock : BlockStmt → List String → List String
  | .mk statements _, used => collectStmtList statements used

def collectVarDecl : VariableDeclaration → List String → List String
  | .mk _ type initializer _ _ _, used =>
    let used := match type with
      | some t => collectType t used
      | none => used
    match initializer with
    | some e => collectExpr e used
    | none => used

def collectMember : ClassMember → List String → List String
  | .propertyMember _ type _ _ _ _ _, used =>
    (match type with
     | some t => collectType t used
     | none => used)
  | .methodMember _ parameters _ body _ _ _, used =>
    let used := collectParamList parameters used
    match body with
    | some b => collectBlock b used
    | none => used

def collectMemberList : List ClassMember → List String → List String
  | [], used => used
  | m :: ms, used => collectMemberList ms (collectMember m used)

def collectSwitchCase : SwitchCase → List String → List String
  | .mk consequent test _, used =>
    let used := match test with
      | some e => collectExpr e used
      | none => used
    collectStmtList consequent used

def collectSwitchCaseList : List SwitchCase → List String → List String
  | [], used => used
  | c :: cs, used => collectSwitchCaseList cs (collectSwitchCase c used)

def collectStmt : Stmt → List String → List String
  | .variableDeclaration v, used => collectVarDecl v used
  | .functionDeclaration _ parameters returnType body _ _ _, used =>
    let used := collectParamList parameters used
    let used := match returnType with
      | some t => collectType t used
      | none => used
    (match body with
     | some b => collectBlock b used
     | none => used)
  | .classDeclaration _ members _ _ _ _ _, used => collectMemberList members used
  | .interfaceDeclaration _ members _ _ _ _, used => collectPropSigList members used
  | .typeAliasDeclaration _ type _ _ _, used => collectType type used
  | .enumDeclaration _ _ _ _ _, used => used
  | .blockStatement b, used => collectBlock b used
  | .expressionStatement expression _, used => collectExpr expression used
  | .returnStatement argument _, used =>
    (match argument with
     | some e => collectExpr e used
     | none => used)
  | .ifStatement test consequent alternate _, used =>
    let used := collectStmt consequent (collectExpr test used)
    (match alternate with
     | some s => collectStmt s used
     | none => used)
  | .whileStatement test body _, used => collectStmt body (collectExpr test used)
  | .forStatement body init test update _, used =>
    let used := match init with
      | some (.decl d) => collectVarDecl d used
      | some (.expr e) => collectExpr e used
      | none => used
    let used := match test with
      | some e => collectExpr e used
      | none => used
    let used := match update with
      | some e => collectExpr e used
      | none => used
    collectStmt body used
  | .forOfStatement left right body _, used =>
    collectStmt body (collectExpr right (collectVarDecl left used))
  | .tryStatement block handler finalizer _, used =>
    let used := collectBlock block used
    let used := match handler with
      | some (.mk body _ _) => collectBlock body used
      | none => used
    (match finalizer with
     | some b => collectBlock b used
     | none => used)
  | .throwStatement argument _, used => collectExpr argument used
  | .switchStatement discriminant cases _, used =>
    collectSwitchCaseList cases (collectExpr discriminant used)
  | .importDeclaration _, used => used
  | .exportDeclaration (.mk declaration _ _ _ _), used =>
    (match declaration with
     | some s => collectStmt s used
     | none => used)

def collectStmtList : List Stmt → List String → List String
  | [], used => used
  | s :: ss, used => collectStmtList ss (collectStmt s used)

end

/-- `DeadCodeEliminationPass.collectUsedSymbols`: every module statement is
visited (including those the filter is about to drop). -/
def collectUsedSymbols (m : Module) : List String :=
  collectStmtList m.statements []

/-- The six `ir.Declaration` kinds with their `name` and `modifiers`
(the spec's `Declaration` sum: Variable, Function, Class, Interface,
TypeAlias, Enum); every other statement is not an `ir.Declaration`. -/
def Stmt.declInfo : Stmt → Option (String × List Modifier)
  | .variableDeclaration (.mk name _ _ _ mods _) => some (name, mods)
  | .functionDeclaration name _ _ _ _ mods _ => some (name, mods)
  | .classDeclaration name _ _ _ _ mods _ => some (name, mods)
  | .interfaceDeclaration name _ _ _ mods _ => some (name, mods)
  | .typeAliasDeclaration name _ _ mods _ => some (name, mods)
  | .enumDeclaration name _ _ mods _ => some (name, mods)
  | _ => none

/-- `DeadCodeEliminationPass.isExported`. -/
def isExportedDecl (mods : List Modifier) : Bool :=
  mods.any (fun m => m.kind == "export")

/-- `DeadCodeEliminationPass.run`: one collection pass over the whole input
module, then one filter over the top-level statements. -/
def dceRun (m : Module) : Module :=
  let usedSymbols := collectUsedSymbols m
  let filteredStatements := m.statements.filter fun stmt =>
    match stmt.declInfo with
    | some (name, mods) => usedSymbols.contains name || isExportedDecl mods
    | none => true
  { m with statements := filteredStatements }

/-! ## Generator configuration and state (`GoCodeGenerator`)

`CompilerOptions` keeps only the keys the generator reads; the string-typed
strategy keys default to the repository's `defaultOptions`.  `GenState`
makes the generator's mutable instance fields explicit. -/

structure CompilerOptions where
  numberStrategy : String := "float64"
  unionStrategy : String := "tagged"
  nullabilityStrategy : String := "pointer"
  errorHandling : String := "return"
  usePointerReceivers : Bool := true
  optimizationLevel : Nat := 0
  verbose : Bool := false
  inlineSmallFunctions : Bool := false
deriving Repr, DecidableEq

/-- Association-list `has` (JavaScript `Map.has`). -/
def alistHas {α : Type} (m : List (String × α)) (k : String) : Bool :=
  m.any (fun p => p.1 == k)

/-- Association-list `get` (JavaScript `Map.get`). -/
def alistGet {α : Type} (m : List (String × α)) (k : String) : Option α :=
  (m.find? (fun p => p.1 == k)).map (fun p => p.2)

/-- Association-list `set` (JavaScript `Map.set`): overwrite in place or
append, preserving first-insertion order. -/
def alistSet {α : Type} (m : List (String × α)) (k : String) (v : α) :
    List (String × α) :=
  if alistHas m k then m.map (fun p => if p.1 == k then (k, v) else p)
  else m ++ [(k, v)]

/-- The generator's instance fields.  `sourceMap` never influences the
emitted code string and is omitted. -/
structure GenState where
  indentLevel : Nat := 0
  indentStr : String := "\t"
  options : CompilerOptions := {}
  currentPackage : String := "main"
  imports : List String := []
  needsContext : Bool := false
  needsRuntime : Bool := false
  tupleTypes : List (String × List IRType) := []
  generatedTupleTypes : List String := []
  currentReceiverName : String := ""
  currentClassName : String := ""
  privateFieldNames : List String := []
  fieldTypeMap : List (String × String) := []

/-- `this.indent()`. -/
def GenState.indent (g : GenState) : String :=
  jsRepeat g.indentStr g.indentLevel

/-- `this.increaseIndent()`. -/
def GenState.increaseIndent (g : GenState) : GenState :=
  { g with indentLevel := g.indentLevel + 1 }

/-- `this.decreaseIndent()` (`Math.max(0, indentLevel - 1)`). -/
def GenState.decreaseIndent (g : GenState) : GenState :=
  { g with indentLevel := g.indentLevel - 1 }

/-- `this.addImport(pkg)`. -/
def GenState.addImport (g : GenState) (pkg : String) : GenState :=
  { g with imports := setAdd g.imports pkg }

/-- `this.reset()` — clears indentation, imports, the context/runtime
flags, and both tuple-interning tables; the remaining fields (package
name, class context, private-field and field-type tables) are untouched. -/
def GenState.reset (g : GenState) : GenState :=
  { g with
    indentLevel := 0
    imports := []
    needsContext := false
    needsRuntime := false
    tupleTypes := []
    generatedTupleTypes := [] }

/-- `this.capitalize(str)`. -/
def capitalize (s : String) : String := jsCapitalize s

/-- `this.hasModifier(modifiers, kind)`. -/
def hasModifier (modifiers : List Modifier) (kind : String) : Bool :=
  modifiers.any (fun m => m.kind == kind)

/-- `this.exportName(name, forceExport)`; the `hasModifier([], 'export')`
disjunct of the source is always false and is kept as written. -/
def exportName (name : String) (forceExport : Bool := false) : String :=
  if forceExport || hasModifier [] "export" then capitalize name else name


theorem sizeOf_find?_lt {α : Type} [SizeOf α] {p : α → Bool} {l : List α} {a : α}
    (h : l.find? p = some a) : sizeOf a < sizeOf l := by
  have hm : a ∈ l := List.mem_of_find?_eq_some h
  exact List.sizeOf_lt_of_mem hm

/-! ## The TypeScript AST consumed by the transformer

`IRTransformer` (src/ir/transformer.ts) reads only the node kinds and
fields below.  Each node carries the `SourceLocation` that the parser's
`getSourceLocation` returns for it; `modifiers` carries the string set the
parser's `getModifiers` returns.  Kinds outside the transformer's
`switch` statements are collapsed into `unsupported…` constructors. -/

mutual

inductive TsEntityName where
  | ident (text : String)
  | qualified (left : TsEntityName) (right : String)

inductive TsPropName where
  | ident (text : String)
  | stringLit (text : String)
  | numericLit (text : String)
  | computed (expression : TsExpr)

inductive TsType where
  | numberKeyword (loc : SourceLocation)
  | stringKeyword (loc : SourceLocation)
  | booleanKeyword (loc : SourceLocation)
  | voidKeyword (loc : SourceLocation)
  | anyKeyword (loc : SourceLocation)
  | unknownKeyword (loc : SourceLocation)
  | neverKeyword (loc : SourceLocation)
  | arrayType (elementType : TsType) (loc : SourceLocation)
  | tupleType (elements : List TsType) (loc : SourceLocation)
  | unionType (types : List TsType) (loc : SourceLocation)
  | intersectionType (types : List TsType) (loc : SourceLocation)
  | typeReference (typeName : TsEntityName) (typeArguments : Option (List TsType))
      (loc : SourceLocation)
  | functionType (parameters : List TsParam) (type : TsType)
      (typeParameters : Option (List TsTypeParam)) (loc : SourceLocation)
  | literalType (literal : TsLiteral) (loc : SourceLocation)
  | typeLiteral (members : List TsTypeElement) (loc : SourceLocation)
  | unsupportedType (loc : SourceLocation)

inductive TsLiteral where
  | str (text : String)
  | num (n : JsNum)
  | trueKeyword
  | falseKeyword
  | nullKeyword
  | other

inductive TsParam where
  | mk (name : TsBindingName) (type : Option TsType) (questionToken : Bool)
      (initializer : Option TsExpr) (dotDotDotToken : Bool) (loc : SourceLocation)

inductive TsBindingName where
  | ident (text : String)
  | pattern

inductive TsTypeParam where
  | mk (name : String) (constraint : Option TsType) (dflt : Option TsType)
      (loc : SourceLocation)

inductive TsTypeElement where
  | propertySignature (name : TsPropName) (type : Option TsType)
      (questionToken : Bool) (modifiers : List String) (loc : SourceLocation)
  | methodSignature (name : TsPropName) (parameters : List TsParam)
      (type : Option TsType) (typeParameters : Option (List TsTypeParam))
      (questionToken : Bool) (loc : SourceLocation)
  | indexSignature (parameters : List TsParam) (type : Option TsType)
      (loc : SourceLocation)
  | otherElement (loc : SourceLocation)

inductive TsExpr where
  | identifier (text : String) (loc : SourceLocation)
  | numericLiteral (n : JsNum) (loc : SourceLocation)
  | stringLiteral (text : String) (loc : SourceLocation)
  | trueKeyword (loc : SourceLocation)
  | falseKeyword (loc : SourceLocation)
  | nullKeyword (loc : SourceLocation)
  | undefinedKeyword (loc : SourceLocation)
  | arrayLiteral (elements : List TsExpr) (loc : SourceLocation)
  | objectLiteral (properties : List TsObjectMember) (loc : SourceLocation)
  | call (expression : TsExpr) (args : List TsExpr)
      (typeArguments : Option (List TsType)) (loc : SourceLocation)
  | newExpr (expression : TsExpr) (args : Option (List TsExpr))
      (typeArguments : Option (List TsType)) (loc : SourceLocation)
  | propertyAccess (expression : TsExpr) (name : String) (questionDot : Bool)
      (loc : SourceLocation)
  | elementAccess (expression : TsExpr) (argumentExpression : TsExpr)
      (questionDot : Bool) (loc : SourceLocation)
  | binary (operatorToken : String) (left : TsExpr) (right : TsExpr)
      (loc : SourceLocation)
  | prefixUnary (operator : String) (operand : TsExpr) (loc : SourceLocation)
  | postfixUnary (operator : String) (operand : TsExpr) (loc : SourceLocation)
  | conditional (condition : TsExpr) (whenTrue : TsExpr) (whenFalse : TsExpr)
      (loc : SourceLocation)
  | arrowFunction (parameters : List TsParam) (body : TsArrowBody)
      (type : Option TsType) (typeParameters : Option (List TsTypeParam))
      (modifiers : List String) (loc : SourceLocation)
  | functionExpression (parameters : List TsParam) (body : Option TsBlock)
      (type : Option TsType) (typeParameters : Option (List TsTypeParam))
      (modifiers : List String) (name : Option String) (loc : SourceLocation)
  | awaitExpr (expression : TsExpr) (loc : SourceLocation)
  | spread (expression : TsExpr) (loc : SourceLocation)
  | templateExpression (head : String) (spans : List TsTemplateSpan)
      (loc : SourceLocation)
  | unsupportedExpression (loc : SourceLocation)

inductive TsTemplateSpan where
  | mk (expression : TsExpr) (literalText : String)

inductive TsObjectMember where
  | propertyAssignment (name : TsPropName) (initializer : TsExpr)
      (loc : SourceLocation) (nameLoc : SourceLocation)
  | shorthand (name : String) (loc : SourceLocation) (nameLoc : SourceLocation)
  | spreadAssignment (expression : TsExpr) (loc : SourceLocation)
  | otherMember (loc : SourceLocation)

inductive TsBlock where
  | mk (statements : List TsStmt) (loc : SourceLocation)

inductive TsArrowBody where
  | block (b : TsBlock)
  | expr (e : TsExpr)

inductive TsVarDecl where
  | mk (name : TsBindingName) (type : Option TsType) (initializer : Option TsExpr)
      (loc : SourceLocation)

inductive TsHeritage where
  | mk (isExtendsKeyword : Bool) (types : List TsType)

inductive TsClassElement where
  | propertyDeclaration (name : TsPropName) (type : Option TsType)
      (initializer : Option TsExpr) (modifiers : List String) (loc : SourceLocation)
  | methodDeclaration (name : TsPropName) (parameters : List TsParam)
      (type : Option TsType) (body : Option TsBlock)
      (typeParameters : Option (List TsTypeParam)) (modifiers : List String)
      (loc : SourceLocation)
  | constructorDeclaration (parameters : List TsParam) (body : Option TsBlock)
      (modifiers : List String) (loc : SourceLocation)
  | getAccessor (name : TsPropName) (type : Option TsType) (body : Option TsBlock)
      (modifiers : List String) (loc : SourceLocation)
  | setAccessor (name : TsPropName) (parameters : List TsParam)
      (body : Option TsBlock) (modifiers : List String) (loc : SourceLocation)
  | otherElement (loc : SourceLocation)

inductive TsEnumMember where
  | mk (name : Option TsPropName) (initializer : Option TsExpr)
      (loc : SourceLocation)

inductive TsCatch where
  | mk (variableDeclaration : Option (TsBindingName × Option TsType × SourceLocation))
      (block : TsBlock) (loc : SourceLocation)

inductive TsCaseClause where
  | mk (isCaseClause : Bool) (expression : Option TsExpr)
      (statements : List TsStmt) (loc : SourceLocation)

inductive TsForInit where
  | declList (declarations : List TsVarDecl) (isConst : Bool)
  | expr (e : TsExpr)

inductive TsStmt where
  | variableStatement (declarations : List TsVarDecl) (isConst : Bool)
      (modifiers : List String) (loc : SourceLocation)
  | functionDeclaration (name : Option String) (parameters : List TsParam)
      (type : Option TsType) (body : Option TsBlock)
      (typeParameters : Option (List TsTypeParam)) (modifiers : List String)
      (loc : SourceLocation)
  | classDeclaration (name : Option String) (members : List TsClassElement)
      (heritageClauses : Option (List TsHeritage))
      (typeParameters : Option (List TsTypeParam)) (modifiers : List String)
      (loc : SourceLocation)
  | interfaceDeclaration (name : String) (members : List TsTypeElement)
      (heritageClauses : Option (List TsHeritage))
      (typeParameters : Option (List TsTypeParam)) (modifiers : List String)
      (loc : SourceLocation)
  | typeAliasDeclaration (name : String) (type : TsType)
      (typeParameters : Option (List TsTypeParam)) (modifiers : List String)
      (loc : SourceLocation)
  | enumDeclaration (name : String) (members : List TsEnumMember)
      (modifiers : List String) (loc : SourceLocation)
  | expressionStatement (expression : TsExpr) (loc : SourceLocation)
  | ifStatement (expression : TsExpr) (thenStatement : TsStmt)
      (elseStatement : Option TsStmt) (loc : SourceLocation)
  | whileStatement (expression : TsExpr) (statement : TsStmt) (loc : SourceLocation)
  | forStatement (initializer : Option TsForInit) (condition : Option TsExpr)
      (incrementor : Option TsExpr) (statement : TsStmt) (loc : SourceLocation)
  | forOfStatement (initializer : TsForInit) (expression : TsExpr)
      (statement : TsStmt) (loc : SourceLocation)
  | returnStatement (expression : Option TsExpr) (loc : SourceLocation)
  | throwStatement (expression : TsExpr) (loc : SourceLocation)
  | tryStatement (tryBlock : TsBlock) (catchClause : Option TsCatch)
      (finallyBlock : Option TsBlock) (loc : SourceLocation)
  | switchStatement (expression : TsExpr) (clauses : List TsCaseClause)
      (loc : SourceLocation)
  | block (b : TsBlock)
  | unsupportedStatement (loc : SourceLocation)

end

/-- `getModifiers`: the parser's modifier strings wrapped into `ir.Modifier`. -/
def getModifiersIR (mods : List String) : List Modifier :=
  mods.map Modifier.mk

/-- `getPropertyName`. -/
def getPropertyName : TsPropName → Option String
  | .ident t => some t
  | .stringLit t => some t
  | .numericLit t => some t
  | .computed _ => none

/-- `getEntityName` (for `A.B` the right-hand identifier's text). -/
def getEntityName : TsEntityName → String
  | .ident t => t
  | .qualified _ r => r

/-- `getBinaryOperator`. -/
def getBinaryOperator (kind : String) : String :=
  match kind with
  | "PlusToken" => "+"
  | "MinusToken" => "-"
  | "AsteriskToken" => "*"
  | "SlashToken" => "/"
  | "PercentToken" => "%"
  | "AsteriskAsteriskToken" => "**"
  | "AmpersandToken" => "&"
  | "BarToken" => "|"
  | "CaretToken" => "^"
  | "LessThanLessThanToken" => "<<"
  | "GreaterThanGreaterThanToken" => ">>"
  | "GreaterThanGreaterThanGreaterThanToken" => ">>>"
  | "EqualsEqualsToken" => "=="
  | "EqualsEqualsEqualsToken" => "==="
  | "ExclamationEqualsToken" => "!="
  | "ExclamationEqualsEqualsToken" => "!=="
  | "LessThanToken" => "<"
  | "LessThanEqualsToken" => "<="
  | "GreaterThanToken" => ">"
  | "GreaterThanEqualsToken" => ">="
  | "AmpersandAmpersandToken" => "&&"
  | "BarBarToken" => "||"
  | "QuestionQuestionToken" => "??"
  | "EqualsToken" => "="
  | "PlusEqualsToken" => "+="
  | "MinusEqualsToken" => "-="
  | "AsteriskEqualsToken" => "*="
  | "SlashEqualsToken" => "/="
  | "PercentEqualsToken" => "%="
  | "AmpersandEqualsToken" => "&="
  | "BarEqualsToken" => "|="
  | "CaretEqualsToken" => "^="
  | "LessThanLessThanEqualsToken" => "<<="
  | "GreaterThanGreaterThanEqualsToken" => ">>="
  | "GreaterThanGreaterThanGreaterThanEqualsToken" => ">>>="
  | "AsteriskAsteriskEqualsToken" => "**="
  | "InKeyword" => "in"
  | "InstanceOfKeyword" => "instanceof"
  | "CommaToken" => ","
  | _ => "="

/-- `getUnaryOperator` for a prefix token. -/
def getPrefixUnaryOperator (op : String) : String :=
  match op with
  | "PlusToken" => "+"
  | "MinusToken" => "-"
  | "ExclamationToken" => "!"
  | "TildeToken" => "~"
  | "PlusPlusToken" => "++"
  | "MinusMinusToken" => "--"
  | _ => "!"

/-- `getUnaryOperator` for a postfix token. -/
def getPostfixUnaryOperator (op : String) : String :=
  match op with
  | "PlusPlusToken" => "++"
  | "MinusMinusToken" => "--"
  | _ => "++"

/-- `isAssignmentOperator`. -/
def isAssignmentOperator (op : String) : Bool :=
  ["=", "+=", "-=", "*=", "/=", "%="].contains op

/-! ## The AST-to-IR transformer (`IRTransformer`)

`transformStatement` returns `none` exactly where the source returns
`null`; the source's non-null assertions (`!`) on loop bodies are modelled
by an empty block.  `getSourceLocation` is the node's own recorded
location. -/

/-- `heritageClauses?.find(h => h.token === ExtendsKeyword / ImplementsKeyword)`,
yielding that clause's `types`. -/
def findHeritage (clauses : Option (List TsHeritage)) (wantExtends : Bool) :
    Option (List TsType) :=
  match clauses with
  | none => none
  | some l =>
    match l.find? (fun h =>
        match h with
        | .mk isExt _ => isExt == wantExtends) with
    | some (.mk _ types) => some types
    | none => none

theorem sizeOf_findHeritage_lt {clauses : Option (List TsHeritage)} {b : Bool}
    {ts : List TsType} (h : findHeritage clauses b = some ts) :
    sizeOf ts + 1 < sizeOf clauses := by
  match clauses with
  | none => simp [findHeritage] at h
  | some l =>
    simp only [findHeritage] at h
    match hf : l.find? (fun h => match h with | .mk isExt _ => isExt == b) with
    | none => rw [hf] at h; exact absurd h (by simp)
    | some (.mk e types) =>
      rw [hf] at h
      simp only [Option.some.injEq] at h
      subst h
      have h1 := sizeOf_find?_lt hf
      simp only [TsHeritage.mk.sizeOf_spec] at h1
      simp only [Option.some.sizeOf_spec]
      omega

/-- Quasi texts of the template spans. -/
def spanLiterals : List TsTemplateSpan → List String
  | [] => []
  | .mk _ lit :: rest => lit :: spanLiterals rest

mutual

/-- `transformStatement`: the statement `switch`, with `none` for the
`default` case. -/
def transformStatement : TsStmt → Option Stmt
  | .variableStatement declarations isConst modifiers _ =>
    some (transformVariableStatement declarations isConst modifiers)
  | .functionDeclaration name parameters type body typeParameters modifiers loc =>
    (match name with
     | none => none
     | some nm =>
       some (.functionDeclaration nm
         (transformParameterList parameters)
         (match type with
          | some t => some (transformTypeNodeCore t)
          | none => none)
         (match body with
          | some b => some (transformBlock b)
          | none => none)
         (transformTypeParamsOpt typeParameters)
         (getModifiersIR modifiers) (some loc)))
  | .classDeclaration name members heritageClauses typeParameters modifiers loc =>
    (match name with
     | none => none
     | some nm =>
       some (.classDeclaration nm (transformClassMemberList members)
         (transformExtendsClause heritageClauses)
         (transformHeritageTypes heritageClauses false)
         (transformTypeParamsOpt typeParameters) (getModifiersIR modifiers) (some loc)))
  | .interfaceDeclaration name members heritageClauses typeParameters modifiers loc =>
    some (.interfaceDeclaration name (transformTypeElementList members)
      (transformHeritageTypes heritageClauses true)
      (transformTypeParamsOpt typeParameters) (getModifiersIR modifiers) (some loc))
  | .typeAliasDeclaration name type typeParameters modifiers loc =>
    some (.typeAliasDeclaration name (transformTypeNodeCore type)
      (transformTypeParamsOpt typeParameters) (getModifiersIR modifiers) (some loc))
  | .enumDeclaration name members modifiers loc =>
    some (.enumDeclaration name (transformEnumMemberList members)
      (modifiers.contains "const") (getModifiersIR modifiers) (some loc))
  | .expressionStatement expression loc =>
    some (.expressionStatement (transformExpression expression) (some loc))
  | .ifStatement expression thenStatement elseStatement loc =>
    some (.ifStatement (transformExpression expression)
      ((transformStatement thenStatement).getD (.blockStatement (.mk [] none)))
      (match elseStatement with
       | some e => transformStatement e
       | none => none)
      (some loc))
  | .whileStatement expression statement loc =>
    some (.whileStatement (transformExpression expression)
      ((transformStatement statement).getD (.blockStatement (.mk [] none))) (some loc))
  | .forStatement initializer condition incrementor statement loc =>
    some (.forStatement
      ((transformStatement statement).getD (.blockStatement (.mk [] none)))
      (match initializer with
       | some (.declList (d :: _) isConst) =>
         (match d with
          | .mk (.ident nm) ty ini dloc =>
            some (.decl (.mk nm
              (match ty with
               | some t => some (transformTypeNodeCore t)
               | none => none)
              (match ini with
               | some e => some (transformExpression e)
               | none => none)
              isConst [] (some dloc)))
          | _ => none)
       | some (.declList [] _) => none
       | some (.expr e) => some (.expr (transformExpression e))
       | none => none)
      (match condition with
       | some e => some (transformExpression e)
       | none => none)
      (match incrementor with
       | some e => some (transformExpression e)
       | none => none)
      (some loc))
  | .forOfStatement initializer expression statement loc =>
    some (.forOfStatement
      (match initializer with
       | .declList (d :: _) isConst =>
         (match d with
          | .mk (.ident nm) ty _ dloc =>
            .mk nm
              (match ty with
               | some t => some (transformTypeNodeCore t)
               | none => none)
              none isConst [] (some dloc)
          | _ => .mk "item" none none false [] none)
       | .declList [] _ => .mk "item" none none false [] none
       | .expr _ => .mk "item" none none false [] none)
      (transformExpression expression)
      ((transformStatement statement).getD (.blockStatement (.mk [] none)))
      (some loc))
  | .returnStatement expression loc =>
    some (.returnStatement
      (match expression with
       | some e => some (transformExpression e)
       | none => none) (some loc))
  | .throwStatement expression loc =>
    some (.throwStatement (transformExpression expression) (some loc))
  | .tryStatement tryBlock catchClause finallyBlock loc =>
    some (.tryStatement (transformBlock tryBlock)
      (match catchClause with
       | some c => some (transformCatchClause c)
       | none => none)
      (match finallyBlock with
       | some b => some (transformBlock b)
       | none => none)
      (some loc))
  | .switchStatement expression clauses loc =>
    some (.switchStatement (transformExpression expression)
      (transformCaseClauseList clauses) (some loc))
  | .block b => some (.blockStatement (transformBlock b))
  | .unsupportedStatement _ => none
termination_by s => 2 * sizeOf s

/-- The `extends` clause of a class: the first type of the extends
heritage clause, if any. -/
def transformExtendsClause (clauses : Option (List TsHeritage)) : Option IRType :=
  match h1 : findHeritage clauses true with
  | some (t :: _) => some (transformTypeNodeCore t)
  | _ => none
termination_by 2 * sizeOf clauses + 1
decreasing_by
  have h2 := sizeOf_findHeritage_lt h1
  simp only [Option.some.sizeOf_spec, List.cons.sizeOf_spec] at h2
  omega

/-- All types of a heritage clause (class `implements`, interface
`extends`). -/
def transformHeritageTypes (clauses : Option (List TsHeritage))
    (wantExtends : Bool) : Option (List IRType) :=
  match h1 : findHeritage clauses wantExtends with
  | some ts => some (transformTypeNodeList ts)
  | none => none
termination_by 2 * sizeOf clauses + 1
decreasing_by
  have h2 := sizeOf_findHeritage_lt h1
  simp only [Option.some.sizeOf_spec] at h2
  omega

/-- `transformVariableStatement`: one IR declaration per identifier-named
declarator; a single declaration is returned as is, several are wrapped in
one `BlockStatement` (built without a location, as in the source). -/
def transformVariableStatement (declarations : List TsVarDecl) (isConst : Bool)
    (modifiers : List String) : Stmt :=
  match transformVarDeclList declarations isConst modifiers with
  | [d] => d
  | l => .blockStatement (.mk l none)
termination_by 2 * sizeOf declarations + 1

/-- The declarator loop of `transformVariableStatement`: every declarator
passes its (possibly absent) type through `transformTypeNode`. -/
def transformVarDeclList (declarations : List TsVarDecl) (isConst : Bool)
    (modifiers : List String) : List Stmt :=
  match declarations with
  | [] => []
  | .mk (.ident nm) ty ini dloc :: rest =>
    .variableDeclaration (.mk nm
      (some (transformTypeNode ty))
      (match ini with
       | some e => some (transformExpression e)
       | none => none)
      isConst (getModifiersIR modifiers) (some dloc)) ::
      transformVarDeclList rest isConst modifiers
  | .mk .pattern _ _ _ :: rest => transformVarDeclList rest isConst modifiers
termination_by 2 * sizeOf declarations

/-- `transformClassMember` over the member list (nulls dropped). -/
def transformClassMemberList : List TsClassElement → List ClassMember
  | [] => []
  | .propertyDeclaration name type initializer modifiers loc :: rest =>
    (match getPropertyName name with
     | some nm =>
       ClassMember.propertyMember nm
         (match type with
          | some t => some (transformTypeNodeCore t)
          | none => none)
         (match initializer with
          | some e => some (transformExpression e)
          | none => none)
         (getModifiersIR modifiers) false false (some loc) ::
         transformClassMemberList rest
     | none => transformClassMemberList rest)
  | .methodDeclaration name parameters type body typeParameters modifiers loc :: rest =>
    (match getPropertyName name with
     | some nm =>
       ClassMember.methodMember nm (transformParameterList parameters)
         (match type with
          | some t => some (transformTypeNodeCore t)
          | none => none)
         (match body with
          | some b => some (transformBlock b)
          | none => none)
         (transformTypeParamsOpt typeParameters)
         (getModifiersIR modifiers) (some loc) ::
         transformClassMemberList rest
     | none => transformClassMemberList rest)
  | .constructorDeclaration parameters body modifiers loc :: rest =>
    ClassMember.methodMember "constructor" (transformParameterList parameters)
      none
      (match body with
       | some b => some (transformBlock b)
       | none => none)
      none (getModifiersIR modifiers) (some loc) ::
      transformClassMemberList rest
  | .getAccessor name type body modifiers loc :: rest =>
    (match getPropertyName name with
     | some nm =>
       ClassMember.methodMember ("get_" ++ nm) []
         (match type with
          | some t => some (transformTypeNodeCore t)
          | none => none)
         (match body with
          | some b => some (transformBlock b)
          | none => none)
         none (getModifiersIR modifiers) (some loc) ::
         transformClassMemberList rest
     | none => transformClassMemberList rest)
  | .setAccessor name parameters body modifiers loc :: rest =>
    (match getPropertyName name with
     | some nm =>
       ClassMember.methodMember ("set_" ++ nm) (transformParameterList parameters)
         none
         (match body with
          | some b => some (transformBlock b)
          | none => none)
         none (getModifiersIR modifiers) (some loc) ::
         transformClassMemberList rest
     | none => transformClassMemberList rest)
  | .otherElement _ :: rest => transformClassMemberList rest
termination_by l => 2 * sizeOf l

/-- The member loop of `transformInterfaceDeclaration`. -/
def transformTypeElementList : List TsTypeElement → List PropertySignature
  | [] => []
  | .propertySignature name type questionToken modifiers loc :: rest =>
    (match getPropertyName name with
     | some nm =>
       PropertySignature.mk nm
         (match type with
          | some t => transformTypeNodeCore t
          | none => .primitiveType "any" none)
         questionToken (modifiers.contains "readonly") (some loc) ::
         transformTypeElementList rest
     | none => transformTypeElementList rest)
  | .methodSignature name parameters type typeParameters questionToken loc :: rest =>
    (match getPropertyName name with
     | some nm =>
       PropertySignature.mk nm
         (IRType.functionType (transformParameterList parameters)
           (match type with
            | some t => transformTypeNodeCore t
            | none => .primitiveType "void" none)
           (transformTypeParamsOpt typeParameters) false (some loc))
         questionToken false (some loc) ::
         transformTypeElementList rest
     | none => transformTypeElementList rest)
  | .indexSignature parameters type loc :: rest =>
    (match parameters, type with
     | p :: _, some ty =>
       (match p with
        | .mk pname pty _ _ _ ploc =>
          PropertySignature.mk "[index]"
            (.functionType
              [.mk (match pname with
                    | .ident t => t
                    | .pattern => "key")
                (some (match pty with
                       | some t => transformTypeNodeCore t
                       | none => .primitiveType "string" none))
                false none false (some ploc)]
              (transformTypeNodeCore ty) none false (some loc))
            false false (some loc) ::
            transformTypeElementList rest)
     | _, _ => transformTypeElementList rest)
  | .otherElement _ :: rest => transformTypeElementList rest
termination_by l => 2 * sizeOf l

/-- The member loop of `transformEnumDeclaration`. -/
def transformEnumMemberList : List TsEnumMember → List EnumMember
  | [] => []
  | .mk name initializer loc :: rest =>
    EnumMember.mk
      (match name with
       | some pn => (getPropertyName pn).getD ""
       | none => "")
      (match initializer with
       | some e => some (transformExpression e)
       | none => none)
      (some loc) :: transformEnumMemberList rest
termination_by l => 2 * sizeOf l

/-- `transformTypeNode` on a present node. -/
def transformTypeNodeCore : TsType → IRType
  | .numberKeyword loc => .primitiveType "number" (some loc)
  | .stringKeyword loc => .primitiveType "string" (some loc)
  | .booleanKeyword loc => .primitiveType "boolean" (some loc)
  | .voidKeyword loc => .primitiveType "void" (some loc)
  | .anyKeyword loc => .primitiveType "any" (some loc)
  | .unknownKeyword loc => .primitiveType "unknown" (some loc)
  | .neverKeyword loc => .primitiveType "never" (some loc)
  | .arrayType elementType loc =>
    .arrayType (transformTypeNodeCore elementType) (some loc)
  | .tupleType elements loc =>
    .tupleType (transformTypeNodeList elements) (some loc)
  | .unionType types loc =>
    .unionType (transformTypeNodeList types) (some loc)
  | .intersectionType types loc =>
    .intersectionType (transformTypeNodeList types) (some loc)
  | .typeReference typeName typeArguments loc =>
    .typeReference (getEntityName typeName)
      (match typeArguments with
       | some ts => some (transformTypeNodeList ts)
       | none => none)
      (some loc)
  | .functionType parameters type typeParameters loc =>
    .functionType (transformParameterList parameters)
      (transformTypeNodeCore type)
      (transformTypeParamsOpt typeParameters) false (some loc)
  | .literalType literal loc =>
    .literalType
      (match literal with
       | .str t => .vStr t
       | .num n => .vNum n
       | .trueKeyword => .vBool true
       | .falseKeyword => .vBool false
       | .nullKeyword => .vNull
       | .other => .vUndefined)
      (some loc)
  | .typeLiteral members loc => transformTypeLiteral members loc
  | .unsupportedType loc => .primitiveType "any" (some loc)
termination_by t => 2 * sizeOf t

/-- `transformTypeNode`: an absent node becomes `Primitive any` with no
location. -/
def transformTypeNode : Option TsType → IRType
  | none => .primitiveType "any" none
  | some t => transformTypeNodeCore t
termination_by o => 2 * sizeOf o

/-- Type-node list helper. -/
def transformTypeNodeList : List TsType → List IRType
  | [] => []
  | t :: ts => transformTypeNodeCore t :: transformTypeNodeList ts
termination_by l => 2 * sizeOf l

/-- `transformTypeLiteral`. -/
def transformTypeLiteral (members : List TsTypeElement) (loc : SourceLocation) :
    IRType :=
  .objectType (transformTypeLiteralProps members)
    (transformTypeLiteralIndex members) (some loc)
termination_by 2 * sizeOf members + 1

/-- Property signatures of a type literal. -/
def transformTypeLiteralProps : List TsTypeElement → List PropertySignature
  | [] => []
  | .propertySignature name type questionToken modifiers loc :: rest =>
    (match getPropertyName name with
     | some nm =>
       PropertySignature.mk nm
         (match type with
          | some t => transformTypeNodeCore t
          | none => .primitiveType "any" none)
         questionToken (modifiers.contains "readonly") (some loc) ::
         transformTypeLiteralProps rest
     | none => transformTypeLiteralProps rest)
  | _ :: rest => transformTypeLiteralProps rest
termination_by l => 2 * sizeOf l

/-- The (last) index signature of a type literal. -/
def transformTypeLiteralIndex : List TsTypeElement → Option IndexSignature
  | [] => none
  | .indexSignature parameters type loc :: rest =>
    (match transformTypeLiteralIndex rest with
     | some idx => some idx
     | none =>
       match parameters, type with
       | p :: _, some ty =>
         (match p with
          | .mk _ pty _ _ _ _ =>
            some (.mk
              (match pty with
               | some t => transformTypeNodeCore t
               | none => .primitiveType "string" none)
              (transformTypeNodeCore ty) (some loc)))
       | _, _ => none)
  | _ :: rest => transformTypeLiteralIndex rest
termination_by l => 2 * sizeOf l

/-- `transformExpression`: total, with `Identifier("unknown")` carrying the
node's location for any unsupported kind. -/
def transformExpression : TsExpr → Expr
  | .identifier text loc => .identifier text (some loc)
  | .numericLiteral n loc => .literal (.vNum n) n.repr (some loc)
  | .stringLiteral text loc => .literal (.vStr text) ("\"" ++ text ++ "\"") (some loc)
  | .trueKeyword loc => .literal (.vBool true) "true" (some loc)
  | .falseKeyword loc => .literal (.vBool false) "false" (some loc)
  | .nullKeyword loc => .literal .vNull "null" (some loc)
  | .undefinedKeyword loc => .literal .vUndefined "undefined" (some loc)
  | .arrayLiteral elements loc =>
    .arrayExpression (transformExprListAsSome elements) none (some loc)
  | .objectLiteral properties loc =>
    .objectExpression (transformObjectMemberList properties) (some loc)
  | .call expression args typeArguments loc =>
    .callExpression (transformExpression expression) (transformExprList args)
      (match typeArguments with
       | some ts => some (transformTypeNodeList ts)
       | none => none)
      (some loc)
  | .newExpr expression args typeArguments loc =>
    .newExpression (transformExpression expression)
      (match args with
       | some l => transformExprList l
       | none => [])
      (match typeArguments with
       | some ts => some (transformTypeNodeList ts)
       | none => none)
      (some loc)
  | .propertyAccess expression name questionDot loc =>
    .memberExpression (transformExpression expression)
      (.identifier name none) false questionDot (some loc)
  | .elementAccess expression argumentExpression questionDot loc =>
    .memberExpression (transformExpression expression)
      (transformExpression argumentExpression) true questionDot (some loc)
  | .binary operatorToken left right loc =>
    (match isAssignmentOperator (getBinaryOperator operatorToken) with
     | true =>
       .assignmentExpression (getBinaryOperator operatorToken)
         (transformExpression left) (transformExpression right) (some loc)
     | false =>
       .binaryExpression (getBinaryOperator operatorToken)
         (transformExpression left) (transformExpression right) (some loc))
  | .prefixUnary operator operand loc =>
    .unaryExpression (getPrefixUnaryOperator operator)
      (transformExpression operand) true (some loc)
  | .postfixUnary operator operand loc =>
    .unaryExpression (getPostfixUnaryOperator operator)
      (transformExpression operand) false (some loc)
  | .conditional condition whenTrue whenFalse loc =>
    .conditionalExpression (transformExpression condition)
      (transformExpression whenTrue) (transformExpression whenFalse) (some loc)
  | .arrowFunction parameters body type typeParameters modifiers loc =>
    .arrowFunctionExpression (transformParameterList parameters)
      (match body with
       | .block b => .block (transformBlock b)
       | .expr e => .expr (transformExpression e))
      (match type with
       | some t => some (transformTypeNodeCore t)
       | none => none)
      (transformTypeParamsOpt typeParameters)
      (modifiers.contains "async") (some loc)
  | .functionExpression parameters body type typeParameters modifiers name loc =>
    .functionExpression (transformParameterList parameters)
      (match body with
       | some b => transformBlock b
       | none => .mk [] none)
      (match type with
       | some t => some (transformTypeNodeCore t)
       | none => none)
      (transformTypeParamsOpt typeParameters)
      (modifiers.contains "async") name (some loc)
  | .awaitExpr expression loc =>
    .awaitExpression (transformExpression expression) (some loc)
  | .spread expression loc =>
    .spreadElement (transformExpression expression) (some loc)
  | .templateExpression head spans loc =>
    .templateLiteral (head :: spanLiterals spans) (spanExpressions spans) (some loc)
  | .unsupportedExpression loc => .identifier "unknown" (some loc)
termination_by e => 2 * sizeOf e

/-- Expressions of the template spans. -/
def spanExpressions : List TsTemplateSpan → List Expr
  | [] => []
  | .mk e _ :: rest => transformExpression e :: spanExpressions rest
termination_by l => 2 * sizeOf l

/-- Expression list helper. -/
def transformExprList : List TsExpr → List Expr
  | [] => []
  | e :: es => transformExpression e :: transformExprList es
termination_by l => 2 * sizeOf l

/-- Array-literal elements (`ArrayExpression` stores optional slots). -/
def transformExprListAsSome : List TsExpr → List (Option Expr)
  | [] => []
  | e :: es => some (transformExpression e) :: transformExprListAsSome es
termination_by l => 2 * sizeOf l

/-- `transformObjectLiteral`'s member loop. -/
def transformObjectMemberList : List TsObjectMember → List Property
  | [] => []
  | .propertyAssignment name initializer loc nameLoc :: rest =>
    (match getPropertyName name with
     | some keyName =>
       Property.mk
         (match name with
          | .computed e => transformExpression e
          | _ => .identifier keyName (some nameLoc))
         (transformExpression initializer) false
         (match name with
          | .computed _ => true
          | _ => false)
         (some loc) :: transformObjectMemberList rest
     | none => transformObjectMemberList rest)
  | .shorthand name loc nameLoc :: rest =>
    Property.mk (.identifier name (some nameLoc)) (.identifier name (some nameLoc))
      true false (some loc) :: transformObjectMemberList rest
  | .spreadAssignment expression loc :: rest =>
    Property.mk (.literal (.vStr "...") "..." (some loc))
      (transformExpression expression) false false (some loc) ::
      transformObjectMemberList rest
  | .otherMember _ :: rest => transformObjectMemberList rest
termination_by l => 2 * sizeOf l

/-- `transformParameter` over a list. -/
def transformParameterList : List TsParam → List Parameter
  | [] => []
  | .mk name type questionToken initializer dotDotDot loc :: rest =>
    Parameter.mk
      (match name with
       | .ident t => t
       | .pattern => "unknown")
      (match type with
       | some t => some (transformTypeNodeCore t)
       | none => none)
      questionToken
      (match initializer with
       | some e => some (transformExpression e)
       | none => none)
      dotDotDot (some loc) :: transformParameterList rest
termination_by l => 2 * sizeOf l

/-- `transformTypeParameter` over an optional list. -/
def transformTypeParamsOpt : Option (List TsTypeParam) →
    Option (List TypeParameter)
  | none => none
  | some l => some (transformTypeParamList l)
termination_by o => 2 * sizeOf o

/-- Type-parameter list helper. -/
def transformTypeParamList : List TsTypeParam → List TypeParameter
  | [] => []
  | .mk name constraint dflt loc :: rest =>
    TypeParameter.mk name
      (match constraint with
       | some t => some (transformTypeNodeCore t)
       | none => none)
      (match dflt with
       | some t => some (transformTypeNodeCore t)
       | none => none)
      (some loc) :: transformTypeParamList rest
termination_by l => 2 * sizeOf l

/-- `transformBlock` (null statements skipped). -/
def transformBlock : TsBlock → BlockStmt
  | .mk statements loc => .mk (transformStmtList statements) (some loc)
termination_by b => 2 * sizeOf b

/-- Statement list with `null` results dropped. -/
def transformStmtList : List TsStmt → List Stmt
  | [] => []
  | s :: rest =>
    (match transformStatement s with
     | some irStmt => irStmt :: transformStmtList rest
     | none => transformStmtList rest)
termination_by l => 2 * sizeOf l

/-- `transformCatchClause`. -/
def transformCatchClause : TsCatch → CatchClause
  | .mk variableDeclaration block loc =>
    .mk (transformBlock block)
      (match variableDeclaration with
       | some (nm, ty, vloc) =>
         some (.mk
           (match nm with
            | .ident t => t
            | .pattern => "error")
           (match ty with
            | some t => some (transformTypeNodeCore t)
            | none => none)
           false none false (some vloc))
       | none => none)
      (some loc)
termination_by c => 2 * sizeOf c

/-- `transformSwitchStatement`'s clause loop. -/
def transformCaseClauseList : List TsCaseClause → List SwitchCase
  | [] => []
  | .mk isCase expression statements loc :: rest =>
    SwitchCase.mk (transformStmtList statements)
      (match isCase, expression with
       | true, some e => some (transformExpression e)
       | _, _ => none)
      (some loc) :: transformCaseClauseList rest
termination_by l => 2 * sizeOf l

end

/-- The top-level statement loop of `transform` (`ts.forEachChild` pushing
non-null results). -/
def transformTopLevel (stmts : List TsStmt) : List Stmt :=
  transformStmtList stmts

/-! ## Type emission (`visitPrimitiveType` … `visitIndexSignature`)

State is threaded explicitly: every function returns the produced string
together with the updated state.  The JavaScript call stack is modelled by
an explicit recursion budget (`fuel`, first argument): every recursive call
spends one unit, an exhausted budget yields the neutral value, and any
budget larger than the recursion depth of the input reproduces the source's
behaviour exactly.  Theorems either quantify over the budget or supply an
ample concrete one. -/

mutual

/-- Dispatch of `type.accept(this)` for the `GoCodeGenerator`. -/
def emitType : Nat → IRType → GenState → String × GenState
  | 0, _, g => ("", g)
  | fuel + 1, .primitiveType kind _, g =>
    (match kind with
     | "number" => (if g.options.numberStrategy == "int" then "int" else "float64", g)
     | "string" => ("string", g)
     | "boolean" => ("bool", g)
     | "void" => ("interface\x7b\x7d", g)
     | "any" => ("interface\x7b\x7d", g)
     | "unknown" => ("interface\x7b\x7d", g)
     | "never" => ("", g)
     | _ => ("interface\x7b\x7d", g))
  | fuel + 1, .arrayType elementType _, g =>
    let (e, g) := emitType fuel elementType g
    ("[]" ++ e, g)
  | fuel + 1, .tupleType elements _, g =>
    registerTupleType fuel elements g
  | fuel + 1, .objectType properties _ _, g =>
    let (fieldList, g) := emitObjectFields fuel properties g
    let fields := String.intercalate "\n" fieldList
    ("struct \x7b\n" ++ fields ++ "\n" ++ g.indent ++ "\x7d", g)
  | fuel + 1, .functionType parameters returnType _ isAsync _, g =>
    let (paramList, g) := emitFuncTypeParams fuel parameters g
    let params := String.intercalate ", " paramList
    let (returnTypeS, g) := emitType fuel returnType g
    if isAsync then
      let g := { g with needsContext := true }
      let g := g.addImport "context"
      ("func(context.Context, " ++ params ++ ") (" ++ returnTypeS ++ ", error)", g)
    else
      ("func(" ++ params ++ ") " ++ returnTypeS, g)
  | fuel + 1, .unionType _ _, g =>
    (match g.options.unionStrategy with
     | "interface" => ("interface\x7b\x7d", g)
     | "any" => ("interface\x7b\x7d", g)
     | _ => ("interface\x7b\x7d", g))
  | fuel + 1, .intersectionType _ _, g =>
    ("interface\x7b\x7d", g)
  | fuel + 1, .typeReference name typeArguments _, g =>
    if name == "Date" then
      ("time.Time", g.addImport "time")
    else if name == "Array" then
      match typeArguments with
      | some [arg] =>
        let (elementType, g) := emitType fuel arg g
        ("[]" ++ elementType, g)
      | some args =>
        if args.length > 0 then
          let (argList, g) := emitTypeList fuel args g
          (name ++ "[" ++ String.intercalate ", " argList ++ "]", g)
        else (name, g)
      | none => (name, g)
    else
      match typeArguments with
      | some args =>
        if args.length > 0 then
          let (argList, g) := emitTypeList fuel args g
          (name ++ "[" ++ String.intercalate ", " argList ++ "]", g)
        else (name, g)
      | none => (name, g)
  | fuel + 1, .literalType value _, g =>
    (match value with
     | .vStr _ => ("string", g)
     | .vNum _ => (if g.options.numberStrategy == "int" then "int" else "float64", g)
     | .vBool _ => ("bool", g)
     | _ => ("interface\x7b\x7d", g))
termination_by structural a1 a2 a3 => a1

/-- Sequential `accept` over a list of types. -/
def emitTypeList : Nat → List IRType → GenState → List String × GenState
  | 0, _, g => ([], g)
  | fuel + 1, [], g => ([], g)
  | fuel + 1, t :: ts, g =>
    let (s, g) := emitType fuel t g
    let (rest, g) := emitTypeList fuel ts g
    (s :: rest, g)
termination_by structural a1 a2 a3 => a1

/-- The field lines of `visitObjectType`. -/
def emitObjectFields : Nat → List PropertySignature → GenState → List String × GenState
  | 0, _, g => ([], g)
  | fuel + 1, [], g => ([], g)
  | fuel + 1, .mk name type optional _ _ :: ps, g =>
    let (typeName, g) := emitType fuel type g
    let fieldName := capitalize name
    let fieldType := if optional then "*" ++ typeName else typeName
    let line := g.indent ++ "\t" ++ fieldName ++ " " ++ fieldType
    let (rest, g) := emitObjectFields fuel ps g
    (line :: rest, g)
termination_by structural a1 a2 a3 => a1

/-- The parameter-type list of `visitFunctionType`
(`p.type?.accept(this) || 'interface\x7b\x7d'`, with JavaScript falsiness of
the empty string). -/
def emitFuncTypeParams : Nat → List Parameter → GenState → List String × GenState
  | 0, _, g => ([], g)
  | fuel + 1, [], g => ([], g)
  | fuel + 1, .mk _ type _ _ _ _ :: ps, g =>
    let (s, g) := match type with
      | some t =>
        let (s, g) := emitType fuel t g
        (if s == "" then "interface\x7b\x7d" else s, g)
      | none => ("interface\x7b\x7d", g)
    let (rest, g) := emitFuncTypeParams fuel ps g
    (s :: rest, g)
termination_by structural a1 a2 a3 => a1

/-- `generateTupleTypeName`: accept every element, then apply the three
global replacements (`[]`→`Array`, `*`→`Ptr`, `\x7b\x7d`→ nothing) and join. -/
def generateTupleTypeName : Nat → List IRType → GenState →
    String × GenState
  | 0, _, g => ("", g)
  | fuel + 1, elements, g =>
    let (names, g) := emitTypeList fuel elements g
    let typeNames := names.map fun typeName =>
      jsReplaceAll (jsReplaceAll (jsReplaceAll typeName "[]" "Array") "*" "Ptr") "\x7b\x7d" ""
    ("Tuple" ++ toString elements.length ++ "_" ++ String.intercalate "_" typeNames, g)
termination_by structural a1 a2 a3 => a1

/-- `registerTupleType` (also the body of `visitTupleType`). -/
def registerTupleType : Nat → List IRType → GenState →
    String × GenState
  | 0, _, g => ("", g)
  | fuel + 1, elements, g =>
    let (typeName, g) := generateTupleTypeName fuel elements g
    let g :=
      if alistHas g.tupleTypes typeName then g
      else { g with tupleTypes := g.tupleTypes ++ [(typeName, elements)] }
    (typeName, g)
termination_by structural a1 a2 a3 => a1

end

/-- The `\tItem{i} {fieldType}\n` lines shared by the tuple-definition
generators. -/
def emitTupleFieldLines (fuel : Nat) (elements : List IRType) (i : Nat) (g : GenState) :
    String × GenState :=
  match elements with
  | [] => ("", g)
  | t :: ts =>
    let (fieldType, g) := emitType fuel t g
    let line := "\tItem" ++ toString i ++ " " ++ fieldType ++ "\n"
    let (rest, g) := emitTupleFieldLines fuel ts (i + 1) g
    (line ++ rest, g)

/-- `generateTupleTypeInline`: emit the named record once; repeated calls
(and names that were never registered) produce the empty string. -/
def generateTupleTypeInline (fuel : Nat) (typeName : String) (g : GenState) :
    String × GenState :=
  if g.generatedTupleTypes.contains typeName then ("", g)
  else
    match alistGet g.tupleTypes typeName with
    | none => ("", g)
    | some elements =>
      let g := { g with generatedTupleTypes := setAdd g.generatedTupleTypes typeName }
      let (fieldLines, g) := emitTupleFieldLines fuel elements 0 g
      ("type " ++ typeName ++ " struct \x7b\n" ++ fieldLines ++ "\x7d\n\n", g)

/-- `generateTupleTypes` (unused batch form, kept for completeness). -/
def generateTupleTypes (fuel : Nat) (g : GenState) : String × GenState :=
  if g.tupleTypes.length == 0 then ("", g)
  else
    let rec go : List (String × List IRType) → GenState → List String × GenState
      | [], g => ([], g)
      | (name, elements) :: rest, g =>
        let (fieldLines, g) := emitTupleFieldLines fuel elements 0 g
        let typeDef := "type " ++ name ++ " struct \x7b\n" ++ fieldLines ++ "\x7d"
        let (defs, g) := go rest g
        (typeDef :: defs, g)
    let (defs, g) := go g.tupleTypes g
    (String.intercalate "\n\n" defs ++ "\n\n", g)

/-- `generateImports`: sorted deduplicated list, single-line form for one
import, grouped form otherwise. -/
def generateImports (g : GenState) : String :=
  if g.imports.length == 0 then ""
  else
    let importList := g.imports.mergeSort (fun a b => a ≤ b)
    if importList.length == 1 then
      "import \"" ++ importList.headI ++ "\"\n\n"
    else
      "import (\n" ++
        String.intercalate "\n" (importList.map (fun pkg => "\t\"" ++ pkg ++ "\"")) ++
        "\n)\n\n"

/-- `visitParameter`. -/
def emitParameter (fuel : Nat) (p : Parameter) (g : GenState) : String × GenState :=
  match p with
  | .mk name type optional _ rest _ =>
    let (t, g) := match type with
      | some t =>
        let (s, g) := emitType fuel t g
        (if s == "" then "interface\x7b\x7d" else s, g)
      | none => ("interface\x7b\x7d", g)
    let t := if optional && g.options.nullabilityStrategy == "pointer" then "*" ++ t else t
    let t := if rest then "..." ++ t else t
    (name ++ " " ++ t, g)

/-- `visitTypeParameter`. -/
def emitTypeParameter (fuel : Nat) (tp : TypeParameter) (g : GenState) : String × GenState :=
  match tp with
  | .mk name constraint _ _ =>
    match constraint with
    | some c =>
      let (s, g) := emitType fuel c g
      (name ++ " " ++ s, g)
    | none => (name ++ " any", g)

/-- `visitPropertySignature` (with its JSON tag). -/
def emitPropertySignature (fuel : Nat) (p : PropertySignature) (g : GenState) :
    String × GenState :=
  match p with
  | .mk name type optional _ _ =>
    let fieldName := capitalize name
    let (typeName, g) := emitType fuel type g
    let fieldType := if optional then "*" ++ typeName else typeName
    let tagSuffix := if optional then ",omitempty" else ""
    (fieldName ++ " " ++ fieldType ++ " `json:\"" ++ name ++ tagSuffix ++ "\"`", g)

/-- `visitIndexSignature`. -/
def emitIndexSignature (fuel : Nat) (idx : IndexSignature) (g : GenState) :
    String × GenState :=
  match idx with
  | .mk keyType valueType _ =>
    let (k, g) := emitType fuel keyType g
    let (v, g) := emitType fuel valueType g
    ("map[" ++ k ++ "]" ++ v, g)

/-! ## Pure analyses used by class emission (`generateConstructor` etc.)

References into the constructor body are recorded as *indices* into the
statement list, so that the later emission re-enters the list structurally
(the source holds the node pointers instead; the behaviour is identical). -/

/-- Is this member an `ir.PropertyMember`? -/
def isPropertyMember : ClassMember → Bool
  | .propertyMember .. => true
  | .methodMember .. => false

/-- Member modifiers. -/
def memberModifiers : ClassMember → List Modifier
  | .propertyMember _ _ _ mods _ _ _ => mods
  | .methodMember _ _ _ _ _ mods _ => mods

/-- Member name. -/
def memberName : ClassMember → String
  | .propertyMember name _ _ _ _ _ _ => name
  | .methodMember name _ _ _ _ _ _ => name

/-- `m instanceof ir.MethodMember && m.name === 'constructor'`. -/
def isConstructorMethod : ClassMember → Bool
  | .methodMember name _ _ _ _ _ _ => name == "constructor"
  | _ => false

/-- `node.members.find(m => m instanceof ir.MethodMember && m.name === 'constructor')`. -/
def findConstructorMethod (members : List ClassMember) : Option ClassMember :=
  members.find? isConstructorMethod

/-- The statements of the found constructor method's body (empty when there
is no constructor method or it has no body). -/
def ctorBodyStmtsOf (members : List ClassMember) : List Stmt :=
  match findConstructorMethod members with
  | some (.methodMember _ _ _ (some (.mk stmts _)) _ _ _) => stmts
  | _ => []

/-- Index of the last `super(...)` expression statement
(`superCall` keeps being overwritten in the source loop). -/
def findSuperCallIdx (stmts : List Stmt) : Option Nat :=
  let rec go : List Stmt → Nat → Option Nat → Option Nat
    | [], _, acc => acc
    | .expressionStatement (.superExpression _ _) _ :: rest, i, _ => go rest (i + 1) (some i)
    | _ :: rest, i, acc => go rest (i + 1) acc
  go stmts 0 none

/-- The argument list of the statement at a super-call index. -/
def superArgsAt (stmts : List Stmt) (i : Nat) : List Expr :=
  match stmts.get? i with
  | some (.expressionStatement (.superExpression args _) _) => some args |>.getD []
  | _ => []

/-- Statement matched by the `this.x = expr` analysis: returns the property
expression (for key computation) and nothing else. -/
def thisAssignProp : Stmt → Option Expr
  | .expressionStatement
      (.assignmentExpression _
        (.memberExpression (.identifier "this" _) property _ _ _) _ _) _ =>
    some property
  | _ => none

/-! Size lemmas discharging the non-structural termination obligations of
the generator's mutual recursion. -/

/-! ## Generator helpers that recurse only into types -/

/-- The recurring `x.type?.accept(this) || 'interface\x7b\x7d'` idiom
(JavaScript falsiness also replaces the empty string produced by `never`). -/
def emitTypeOrIface (fuel : Nat) (t : Option IRType) (g : GenState) : String × GenState :=
  match t with
  | some t =>
    let (s, g) := emitType fuel t g
    (if s == "" then "interface\x7b\x7d" else s, g)
  | none => ("interface\x7b\x7d", g)

/-- `node.parameters.map(p => this.visitParameter(p))`. -/
def emitParamsList (fuel : Nat) : List Parameter → GenState → List String × GenState
  | [], g => ([], g)
  | p :: ps, g =>
    let (s, g) := emitParameter fuel p g
    let (rest, g) := emitParamsList fuel ps g
    (s :: rest, g)

/-- `'[' + typeParameters.map(tp => tp.accept(this)).join(', ') + ']'`, or the
empty string when there are no type parameters.  The function-declaration
emitter inlines `tp.name + (tp.constraint ? ' ' + accept : ' any')`, which is
exactly `visitTypeParameter`. -/
def emitTypeParamsBracket (fuel : Nat) (tps : Option (List TypeParameter)) (g : GenState) :
    String × GenState :=
  match tps with
  | some l =>
    if l.length > 0 then
      let rec go : List TypeParameter → GenState → List String × GenState
        | [], g => ([], g)
        | tp :: rest, g =>
          let (s, g) := emitTypeParameter fuel tp g
          let (restS, g) := go rest g
          (s :: restS, g)
      let (parts, g) := go l g
      ("[" ++ String.intercalate ", " parts ++ "]", g)
    else ("", g)
  | none => ("", g)

/-- Accessors for `PropertySignature`. -/
def sigName : PropertySignature → String
  | .mk n _ _ _ _ => n

def sigType : PropertySignature → IRType
  | .mk _ t _ _ _ => t

def sigOptional : PropertySignature → Bool
  | .mk _ _ o _ _ => o

/-- `visitInterfaceDeclaration`. -/
def emitInterfaceDeclaration (fuel : Nat) (name0 : String) (members : List PropertySignature)
    (extendsClause : Option (List IRType)) (tps : Option (List TypeParameter))
    (mods : List Modifier) (g : GenState) : String × GenState :=
  let name := exportName name0 (hasModifier mods "export")
  let (typeParams, g) := emitTypeParamsBracket fuel tps g
  let hasIndexSignature := members.any fun m =>
    sigName m == "[index]" || jsStartsWith (sigName m) "["
  if hasIndexSignature && members.length == 1 then
    match members with
    | [m] =>
      (match sigType m with
       | IRType.functionType _ returnType _ _ _ =>
         let (valueType, g) := emitType fuel returnType g
         ("type " ++ name ++ typeParams ++ " map[string]" ++ valueType, g)
       | t =>
         let (valueType, g) := emitType fuel t g
         ("type " ++ name ++ typeParams ++ " map[string]" ++ valueType, g))
    | _ => ("", g)
  else
  let hasOnlyProperties := members.all fun m =>
    if sigName m == "[index]" || jsStartsWith (sigName m) "[" then true
    else
      match sigType m with
      | IRType.functionType _ _ _ _ _ => false
      | _ => true
  if hasOnlyProperties && members.length > 0 then
    let result := "type " ++ name ++ typeParams ++ " struct \x7b\n"
    let (result, g) :=
      match extendsClause with
      | some exts =>
        if exts.length > 0 then
          let g := g.increaseIndent
          let lines := exts.map fun ext =>
            let extTypeName := match ext with
              | IRType.typeReference nm _ _ => nm
              | _ => "undefined"
            g.indent ++ extTypeName ++ "\n"
          let g := g.decreaseIndent
          (result ++ String.join lines, g)
        else (result, g)
      | none => (result, g)
    let g := g.increaseIndent
    let maxFieldLen := (members.map (fun m => (capitalize (sigName m)).length)).foldl max 0
    let fieldPaddingWidth := max (maxFieldLen + 1) 10
    let rec goFields : List PropertySignature → GenState → String × GenState
      | [], g => ("", g)
      | m :: rest, g =>
        let fieldName := capitalize (sigName m)
        let (typeName, g) := emitType fuel (sigType m) g
        let fieldType := if sigOptional m then "*" ++ typeName else typeName
        let paddedName := jsPadEnd fieldName fieldPaddingWidth
        let line := g.indent ++ paddedName ++ fieldType ++ "\n"
        let (restS, g) := goFields rest g
        (line ++ restS, g)
    let (fieldsS, g) := goFields members g
    let g := g.decreaseIndent
    (result ++ fieldsS ++ "\x7d", g)
  else
    let result := "type " ++ name ++ typeParams ++ " interface \x7b\n"
    let (result, g) :=
      match extendsClause with
      | some exts =>
        let g := g.increaseIndent
        let rec goExts : List IRType → GenState → String × GenState
          | [], g => ("", g)
          | ext :: rest, g =>
            let (s, g) := emitType fuel ext g
            let line := g.indent ++ s ++ "\n"
            let (restS, g) := goExts rest g
            (line ++ restS, g)
        let (extS, g) := goExts exts g
        let g := g.decreaseIndent
        (result ++ extS, g)
      | none => (result, g)
    let g := g.increaseIndent
    let rec goMethods : List PropertySignature → GenState → String × GenState
      | [], g => ("", g)
      | m :: rest, g =>
        let methodName := capitalize (sigName m)
        let (typeName, g) := emitType fuel (sigType m) g
        let (line, g) :=
          match sigType m with
          | IRType.functionType parameters returnType _ _ _ =>
            let (paramList, g) := emitParamsList fuel parameters g
            let params := String.intercalate ", " paramList
            let (returnTypeS, g) := emitType fuel returnType g
            (g.indent ++ methodName ++ "(" ++ params ++ ") " ++ returnTypeS ++ "\n", g)
          | _ =>
            (g.indent ++ methodName ++ "() " ++ typeName ++ "\n", g)
        let (restS, g) := goMethods rest g
        (line ++ restS, g)
    let (methodsS, g) := goMethods members g
    let g := g.decreaseIndent
    (result ++ methodsS ++ "\x7d", g)

/-- `generateUnionType`. -/
def generateUnionType (fuel : Nat) (name : String) (types : List IRType) (typeParams : String)
    (g : GenState) : String × GenState :=
  match g.options.unionStrategy with
  | "interface" =>
    let result := "type " ++ name ++ typeParams ++ " interface \x7b\n" ++
      "\tis" ++ name ++ "()\n" ++ "\x7d\n\n"
    let rec goVariants : List IRType → Nat → GenState → String × GenState
      | [], _, g => ("", g)
      | t :: rest, i, g =>
        let (typeName, g) := emitType fuel t g
        let variantName := name ++ "Variant" ++ toString i
        let part := "type " ++ variantName ++ " struct \x7b Value " ++ typeName ++ " \x7d\n" ++
          "func (" ++ variantName ++ ") is" ++ name ++ "() \x7b\x7d\n\n"
        let (restS, g) := goVariants rest (i + 1) g
        (part ++ restS, g)
    let (variantsS, g) := goVariants types 0 g
    (jsTrim (result ++ variantsS), g)
  | "any" => ("type " ++ name ++ typeParams ++ " interface\x7b\x7d", g)
  | _ =>
    let taggedResult := "type " ++ name ++ typeParams ++ " struct \x7b\n" ++ "\ttag int\n"
    let rec goFields : List IRType → Nat → GenState → String × GenState
      | [], _, g => ("", g)
      | t :: rest, i, g =>
        let (typeName, g) := emitType fuel t g
        let line := "\tvalue" ++ toString i ++ " *" ++ typeName ++ "\n"
        let (restS, g) := goFields rest (i + 1) g
        (line ++ restS, g)
    let (fieldsS, g) := goFields types 0 g
    let taggedResult := taggedResult ++ fieldsS ++ "\x7d\n\n"
    let rec goHelpers : List IRType → Nat → GenState → String × GenState
      | [], _, g => ("", g)
      | t :: rest, i, g =>
        let (typeName, g) := emitType fuel t g
        let part :=
          "func (u " ++ name ++ ") IsType" ++ toString i ++ "() bool \x7b return u.tag == " ++
            toString i ++ " \x7d\n" ++
          "func (u " ++ name ++ ") AsType" ++ toString i ++ "() " ++ typeName ++ " \x7b\n" ++
          "\tif u.value" ++ toString i ++ " != nil \x7b return *u.value" ++ toString i ++ " \x7d\n" ++
          "\tvar zero " ++ typeName ++ "\n" ++
          "\treturn zero\n" ++
          "\x7d\n\n"
        let (restS, g) := goHelpers rest (i + 1) g
        (part ++ restS, g)
    let (helpersS, g) := goHelpers types 0 g
    (jsTrim (taggedResult ++ helpersS), g)

/-- `generateIntersectionType`. -/
def generateIntersectionType (fuel : Nat) (name : String) (types : List IRType)
    (typeParams : String) (g : GenState) : String × GenState :=
  let result := "type " ++ name ++ typeParams ++ " struct \x7b\n"
  let g := g.increaseIndent
  let rec go : List IRType → GenState → String × GenState
    | [], g => ("", g)
    | t :: rest, g =>
      let (typeName, g) := emitType fuel t g
      let line := g.indent ++ typeName ++ "\n"
      let (restS, g) := go rest g
      (line ++ restS, g)
  let (body, g) := go types g
  let g := g.decreaseIndent
  (result ++ body ++ "\x7d", g)

/-! ## Pure member predicates and the remaining class helpers -/

/-- `metadata.get('isConstructorParam')` for a property member. -/
def metaIsCtorParam : ClassMember → Bool
  | .propertyMember _ _ _ _ mcp _ _ => mcp
  | _ => false

/-- `metadata.get('isOptional')` for a property member. -/
def metaIsOptional : ClassMember → Bool
  | .propertyMember _ _ _ _ _ mo _ => mo
  | _ => false

/-- Names of private instance property members, in member order (the
additions to `privateFieldNames` made by the classification loop of
`visitClassDeclaration`). -/
def privateInstanceFieldNames (members : List ClassMember) : List String :=
  members.foldl
    (fun acc m =>
      if isPropertyMember m &&
          !(hasModifier (memberModifiers m) "static") &&
          hasModifier (memberModifiers m) "private" then
        setAdd acc (memberName m)
      else acc) []

/-- The field-info pass over instance properties
(`visitClassDeclaration`, first pass): emits each property type, applies
the integer-literal narrowing for `number` fields (recording the narrowed
type in `fieldTypeMap`), and applies the pointer wrapping for optional
constructor parameters. -/
def emitStructFieldInfos (fuel : Nat) : List ClassMember → GenState →
    List (String × String) × GenState
  | [], g => ([], g)
  | m :: rest, g =>
    match m with
    | .propertyMember pname ptype pinit pmods _ pIsOpt _ =>
      let isPrivate := hasModifier pmods "private"
      let fieldName := if isPrivate then pname else capitalize pname
      let (typeName, g) := emitTypeOrIface fuel ptype g
      let (typeName, g) :=
        match ptype, pinit with
        | some (.primitiveType "number" _), some (.literal (.vNum n) _ _) =>
          if n.isInteger then
            ("int", { g with fieldTypeMap := alistSet g.fieldTypeMap pname "int" })
          else (typeName, g)
        | _, _ => (typeName, g)
      let typeName :=
        if pIsOpt && g.options.nullabilityStrategy == "pointer" then "*" ++ typeName
        else typeName
      let (rest', g) := emitStructFieldInfos fuel rest g
      ((fieldName, typeName) :: rest', g)
    | .methodMember .. =>
      -- unreachable: the caller passes property members only
      emitStructFieldInfos fuel rest g

/-- Module-level variables for static properties
(`var {class-lowercased}{Prop-capitalized} *{Class}`); the property's type
is emitted and discarded, exactly as in the source. -/
def emitStaticPropLines (fuel : Nat) (className : String) : List ClassMember → GenState →
    String × GenState
  | [], g => ("", g)
  | m :: rest, g =>
    match m with
    | .propertyMember pname ptype _ _ _ _ _ =>
      let varName := jsToLower className ++ capitalize pname
      let (_, g) := emitTypeOrIface fuel ptype g
      let line := "var " ++ varName ++ " *" ++ className ++ "\n"
      let (restS, g) := emitStaticPropLines fuel className rest g
      (line ++ restS, g)
    | .methodMember .. => emitStaticPropLines fuel className rest g

/-- `extractReturnedFieldName`: the field of `return this.f` or
`return ++this.f` / `return this.f++`, scanning for the first matching
return statement. -/
def extractReturnedFieldName : List Stmt → Option String
  | [] => none
  | .returnStatement
      (some (.memberExpression (.identifier "this" _) (.identifier f _) _ _ _)) _ :: _ =>
    some f
  | .returnStatement
      (some (.unaryExpression _
        (.memberExpression (.identifier "this" _) (.identifier f _) _ _ _) _ _)) _ :: _ =>
    some f
  | _ :: rest => extractReturnedFieldName rest

/-- Constructor parameter strings when a `super(...)` call was recorded
(the constructor method's own parameter list). -/
def emitCtorParamsFromMethod (fuel : Nat) : List Parameter → GenState → List String × GenState
  | [], g => ([], g)
  | .mk pname ptype poptional _ _ _ :: rest, g =>
    let (typeName, g) := emitTypeOrIface fuel ptype g
    let typeName :=
      if poptional && g.options.nullabilityStrategy == "pointer" then "*" ++ typeName
      else typeName
    let (restS, g) := emitCtorParamsFromMethod fuel rest g
    ((pname ++ " " ++ typeName) :: restS, g)

/-- Constructor parameter strings from constructor-parameter properties
(no `super(...)` call). -/
def emitCtorParamsFromProps (fuel : Nat) : List ClassMember → GenState → List String × GenState
  | [], g => ([], g)
  | m :: rest, g =>
    match m with
    | .propertyMember pname ptype _ pmods _ pIsOpt _ =>
      let isPrivate := hasModifier pmods "private"
      let paramName := if isPrivate then pname else jsToLower pname
      let (typeName, g) := emitTypeOrIface fuel ptype g
      let typeName :=
        if pIsOpt && g.options.nullabilityStrategy == "pointer" then "*" ++ typeName
        else typeName
      let (restS, g) := emitCtorParamsFromProps fuel rest g
      ((paramName ++ " " ++ typeName) :: restS, g)
    | .methodMember .. => emitCtorParamsFromProps fuel rest g

/-- Parameters of the found constructor method. -/
def ctorMethodParams (members : List ClassMember) : List Parameter :=
  match findConstructorMethod members with
  | some (.methodMember _ ps _ _ _ _ _) => ps
  | _ => []

/-- `methodName.replace(/^Get/, '')`. -/
def stripGetPrefix (s : String) : String :=
  if jsStartsWith s "Get" then jsDrop s 3 else s

/-- Strip a leading `var ` and then a leading `const ` (the anchored
`replace(/^var /,'').replace(/^const /,'')` of `visitForStatement`). -/
def stripVarConstPrefix (s : String) : String :=
  let s := if jsStartsWith s "var " then jsDrop s 4 else s
  if jsStartsWith s "const " then jsDrop s 6 else s

/-! ## The main emission family

All remaining `GoCodeGenerator` visitors, mutually recursive, under the
same explicit recursion budget as the type family (the source's
`visit*Static` methods fall back to the plain visitors on the same
node). -/

mutual

/-- Dispatch of `expr.accept(this)`. -/
def emitExpr : Nat → Expr → GenState → String × GenState
  | 0, _, g => ("", g)
  | fuel + 1, .identifier name _, g =>
    if name == "undefined" then ("nil", g)
    else if name == "this" && g.currentReceiverName != "" then (g.currentReceiverName, g)
    else (name, g)
  | fuel + 1, .literal value raw _, g =>
    if value == JsValue.vNull then ("nil", g)
    else if value == JsValue.vUndefined then ("nil", g)
    else if raw == "undefined" then ("nil", g)
    else
      (match value with
       | .vStr s => ("\"" ++ s ++ "\"", g)
       | v => (v.jsString, g))
  | fuel + 1, .arrayExpression elements inferredType _, g =>
    let (elementList, g) := emitOptElements fuel elements g
    let elementsS := String.intercalate ", " elementList
    let (elementType, g) :=
      match inferredType with
      | some (.arrayType elementType _) => emitType fuel elementType g
      | _ => ("interface\x7b\x7d", g)
    ("[]" ++ elementType ++ "\x7b" ++ elementsS ++ "\x7d", g)
  | fuel + 1, .objectExpression properties _, g =>
    let (props, g) := emitPropertyList fuel properties g
    ("map[string]interface\x7b\x7d\x7b" ++ String.intercalate ", " props ++ "\x7d", g)
  | fuel + 1, .functionExpression parameters body returnType _ _ _ _, g =>
    let (paramList, g) := emitParamsList fuel parameters g
    let params := String.intercalate ", " paramList
    let (returnTypeS, g) := match returnType with
      | some rt => emitType fuel rt g
      | none => ("", g)
    let (bodyS, g) := emitBlockStatement fuel body g
    let signature := "func(" ++ params ++ ")" ++
      (if returnTypeS != "" then " " ++ returnTypeS else "")
    (signature ++ " " ++ bodyS, g)
  | fuel + 1, .arrowFunctionExpression parameters body returnType _ _ _, g =>
    let (paramList, g) := emitParamsList fuel parameters g
    let params := String.intercalate ", " paramList
    let (returnTypeS, g) := match returnType with
      | some rt => emitType fuel rt g
      | none => ("", g)
    let signature := "func(" ++ params ++ ")" ++
      (if returnTypeS != "" then " " ++ returnTypeS else "")
    (match body with
     | .block b =>
       let (bodyS, g) := emitBlockStatement fuel b g
       (signature ++ " " ++ bodyS, g)
     | .expr e =>
       let (bodyS, g) := emitExpr fuel e g
       (signature ++ " \x7b return " ++ bodyS ++ " \x7d", g))
  | fuel + 1, .callExpression callee args typeArguments _, g =>
    let (calleeS, g) := emitExpr fuel callee g
    let (argList, g) := emitExprList fuel args g
    let argsS := String.intercalate ", " argList
    let (typeArgs, g) :=
      match typeArguments with
      | some l =>
        if l.length > 0 then
          let (tl, g) := emitTypeList fuel l g
          ("[" ++ String.intercalate ", " tl ++ "]", g)
        else ("", g)
      | none => ("", g)
    (calleeS ++ typeArgs ++ "(" ++ argsS ++ ")", g)
  | fuel + 1, .memberExpression object property computed optional _, g =>
    let (objectS, g) := emitExpr fuel object g
    if computed then
      let (propertyS, g) := emitExpr fuel property g
      (objectS ++ "[" ++ propertyS ++ "]", g)
    else
      let (propertyS, g) :=
        match property with
        | .identifier propName _ =>
          if g.privateFieldNames.contains propName then (propName, g)
          else (capitalize propName, g)
        | p => emitExpr fuel p g
      if optional then
        let g := { g with needsRuntime := true }
        (objectS ++ "." ++ propertyS, g)
      else
        (objectS ++ "." ++ propertyS, g)
  | fuel + 1, .newExpression callee args _ _, g =>
    let (calleeS, g) := emitExpr fuel callee g
    let (argList, g) := emitExprList fuel args g
    let argsS := String.intercalate ", " argList
    if calleeS == "Date" then
      ("time.Now()", g.addImport "time")
    else
      ("New" ++ calleeS ++ "(" ++ argsS ++ ")", g)
  | fuel + 1, .superExpression args _, g =>
    let (argList, g) := emitExprList fuel args g
    ("__SUPER__(" ++ String.intercalate ", " argList ++ ")", g)
  | fuel + 1, .binaryExpression op left right _, g =>
    let (l, g) := emitExpr fuel left g
    let (r, g) := emitExpr fuel right g
    if op == "===" || op == "==" then (l ++ " == " ++ r, g)
    else if op == "!==" || op == "!=" then (l ++ " != " ++ r, g)
    else if op == "??" then
      ("func() interface\x7b\x7d \x7b if " ++ l ++ " != nil \x7b return " ++ l ++
        " \x7d; return " ++ r ++ " \x7d()", g)
    else (l ++ " " ++ op ++ " " ++ r, g)
  | fuel + 1, .unaryExpression op argument isPre _, g =>
    let (arg, g) := emitExpr fuel argument g
    if op == "typeof" then
      ("reflect.TypeOf(" ++ arg ++ ").String()", g.addImport "reflect")
    else if op == "void" then
      ("func() interface\x7b\x7d \x7b " ++ arg ++ "; return nil \x7d()", g)
    else if op == "delete" then
      ("delete(/* map */, " ++ arg ++ ")", g)
    else if isPre then (op ++ arg, g)
    else (arg ++ op, g)
  | fuel + 1, .assignmentExpression op left right _, g =>
    let (l, g) := emitExpr fuel left g
    let (r, g) := emitExpr fuel right g
    (l ++ " " ++ op ++ " " ++ r, g)
  | fuel + 1, .conditionalExpression test consequent alternate _, g =>
    let (t, g) := emitExpr fuel test g
    let (c, g) := emitExpr fuel consequent g
    let (a, g) := emitExpr fuel alternate g
    ("func() interface\x7b\x7d \x7b if " ++ t ++ " \x7b return " ++ c ++
      " \x7d; return " ++ a ++ " \x7d()", g)
  | fuel + 1, .awaitExpression argument _, g => emitExpr fuel argument g
  | fuel + 1, .spreadElement argument _, g =>
    let (arg, g) := emitExpr fuel argument g
    (arg ++ "...", g)
  | fuel + 1, .templateLiteral quasis expressions _, g =>
    let g := g.addImport "fmt"
    let ((format, args), g) := buildTemplate fuel quasis expressions g
    if args.length == 0 then ("\"" ++ format ++ "\"", g)
    else ("fmt.Sprintf(\"" ++ format ++ "\", " ++ String.intercalate ", " args ++ ")", g)
termination_by structural a1 a2 a3 => a1

/-- `args.map(arg => arg.accept(this))`. -/
def emitExprList : Nat → List Expr → GenState → List String × GenState
  | 0, _, g => ([], g)
  | fuel + 1, [], g => ([], g)
  | fuel + 1, e :: es, g =>
    let (s, g) := emitExpr fuel e g
    let (rest, g) := emitExprList fuel es g
    (s :: rest, g)
termination_by structural a1 a2 a3 => a1

/-- `elements.map(e => e ? e.accept(this) : 'nil')`. -/
def emitOptElements : Nat → List (Option Expr) → GenState → List String × GenState
  | 0, _, g => ([], g)
  | fuel + 1, [], g => ([], g)
  | fuel + 1, some e :: es, g =>
    let (s, g) := emitExpr fuel e g
    let (rest, g) := emitOptElements fuel es g
    (s :: rest, g)
  | fuel + 1, none :: es, g =>
    let (rest, g) := emitOptElements fuel es g
    ("nil" :: rest, g)
termination_by structural a1 a2 a3 => a1

/-- `properties.map(p => this.visitProperty(p))`. -/
def emitPropertyList : Nat → List Property → GenState → List String × GenState
  | 0, _, g => ([], g)
  | fuel + 1, [], g => ([], g)
  | fuel + 1, .mk key value _ _ _ :: ps, g =>
    let (keyS, g) :=
      match key with
      | .identifier nm _ => ("\"" ++ nm ++ "\"", g)
      | k => emitExpr fuel k g
    let (valueS, g) := emitExpr fuel value g
    let (rest, g) := emitPropertyList fuel ps g
    ((keyS ++ ": " ++ valueS) :: rest, g)
termination_by structural a1 a2 a3 => a1

/-- The format-string/argument loop of `visitTemplateLiteral`. -/
def buildTemplate : Nat → List String → List Expr → GenState →
    (String × List String) × GenState
  | 0, _, _, g => (("", []), g)
  | fuel + 1, [], _, g => (("", []), g)
  | fuel + 1, q :: qs, [], g =>
    let ((format, args), g) := buildTemplate fuel qs [] g
    ((q ++ format, args), g)
  | fuel + 1, q :: qs, e :: es, g =>
    let (argS, g) := emitExpr fuel e g
    let (verb, arg) :=
      match e with
      | .identifier nm _ =>
        (if jsTestAnyI ["name", "title", "string", "text", "message"] nm
         then "%s" else "%v",
         if jsTestAnyI ["age", "value", "count", "id", "amount"] nm
         then "*" ++ argS else argS)
      | .memberExpression _ (.identifier pn _) _ _ _ =>
        (if jsTestAnyI ["name", "title", "string", "text", "message"] pn
         then "%s" else "%v", argS)
      | _ => ("%v", argS)
    let ((format, args), g) := buildTemplate fuel qs es g
    ((q ++ verb ++ format, arg :: args), g)
termination_by structural a1 a2 a3 a4 => a1

/-- Dispatch of `stmt.accept(this)`. -/
def emitStmt : Nat → Stmt → GenState → String × GenState
  | 0, _, g => ("", g)
  | fuel + 1, .variableDeclaration v, g => emitVariableDeclaration fuel v g
  | fuel + 1, .functionDeclaration name parameters returnType body typeParameters modifiers _, g =>
    emitFunctionDeclaration fuel name parameters returnType body typeParameters modifiers g
  | fuel + 1, .classDeclaration name members extendsClause _ typeParameters modifiers _, g =>
    emitClassDeclaration fuel name members extendsClause typeParameters modifiers g
  | fuel + 1, .interfaceDeclaration name members extendsClause typeParameters modifiers _, g =>
    emitInterfaceDeclaration fuel name members extendsClause typeParameters modifiers g
  | fuel + 1, .typeAliasDeclaration name type typeParameters modifiers _, g =>
    let nameE := exportName name (hasModifier modifiers "export")
    let (typeParams, g) := emitTypeParamsBracket fuel typeParameters g
    (match type with
     | .unionType types _ => generateUnionType fuel nameE types typeParams g
     | .intersectionType types _ => generateIntersectionType fuel nameE types typeParams g
     | t =>
       let (typeName, g) := emitType fuel t g
       ("type " ++ nameE ++ typeParams ++ " " ++ typeName, g))
  | fuel + 1, .enumDeclaration name members _ modifiers _, g =>
    let nameE := exportName name (hasModifier modifiers "export")
    let isStringEnum := members.any fun m =>
      match m with
      | .mk _ (some (.literal (.vStr _) _ _)) _ => true
      | _ => false
    if isStringEnum then
      let result := "type " ++ nameE ++ " string\n\n" ++ "const (\n"
      let g := g.increaseIndent
      let (linesS, g) := emitEnumStringMembers fuel nameE members g
      let g := g.decreaseIndent
      (result ++ linesS ++ ")", g)
    else
      let result := "type " ++ nameE ++ " int\n\n" ++ "const (\n"
      let g := g.increaseIndent
      let (linesS, g) := emitEnumNumericMembers fuel nameE members 0 g
      let g := g.decreaseIndent
      (result ++ linesS ++ ")", g)
  | fuel + 1, .blockStatement b, g => emitBlockStatement fuel b g
  | fuel + 1, .expressionStatement expression _, g =>
    (match expression with
     | .assignmentExpression _ _ _ _ => ("", g)
     | e => emitExpr fuel e g)
  | fuel + 1, .returnStatement argument _, g =>
    (match argument with
     | some (.callExpression (.memberExpression object (.identifier "includes" _) c o l) [arg] ta cl) =>
       let _ := (c, o, l, ta, cl)
       let (arrayExpr, g) := emitExpr fuel object g
       let (valueExpr, g) := emitExpr fuel arg g
       let result := "for _, p := range " ++ arrayExpr ++ " \x7b\n"
       let g := g.increaseIndent
       let result := result ++ g.indent ++ "if p == " ++ valueExpr ++ " \x7b\n"
       let g := g.increaseIndent
       let result := result ++ g.indent ++ "return true\n"
       let g := g.decreaseIndent
       let result := result ++ g.indent ++ "\x7d\n"
       let g := g.decreaseIndent
       let result := result ++ g.indent ++ "\x7d\n" ++ g.indent ++ "return false"
       (result, g)
     | some (.unaryExpression op argument true ul) =>
       if op == "++" || op == "--" then
         let _ := ul
         let (argCode, g) := emitExpr fuel argument g
         (argCode ++ op ++ "\n" ++ g.indent ++ "return " ++ argCode, g)
       else
         let (s, g) := emitExpr fuel (.unaryExpression op argument true ul) g
         ("return " ++ s, g)
     | some e =>
       let (s, g) := emitExpr fuel e g
       ("return " ++ s, g)
     | none => ("return", g))
  | fuel + 1, .ifStatement test consequent alternate _, g =>
    let (testExpr, g) := emitExpr fuel test g
    let testExpr :=
      match test with
      | .identifier _ _ => testExpr ++ " != nil"
      | _ => testExpr
    let (consequentS, g) := emitStmt fuel consequent g
    let result := "if " ++ testExpr ++ " " ++ consequentS
    (match alternate with
     | some alt =>
       let (altS, g) := emitStmt fuel alt g
       (result ++ " else " ++ altS, g)
     | none => (result, g))
  | fuel + 1, .whileStatement test body _, g =>
    let (testS, g) := emitExpr fuel test g
    let (bodyS, g) := emitStmt fuel body g
    ("for " ++ testS ++ " " ++ bodyS, g)
  | fuel + 1, .forStatement body init test update _, g =>
    let (initS, g) :=
      match init with
      | some (.expr e) => emitExpr fuel e g
      | some (.decl d) =>
        let (s, g) := emitVariableDeclaration fuel d g
        (stripVarConstPrefix s, g)
      | none => ("", g)
    let (testS, g) := match test with
      | some e => emitExpr fuel e g
      | none => ("", g)
    let (updateS, g) := match update with
      | some e => emitExpr fuel e g
      | none => ("", g)
    let (bodyS, g) := emitStmt fuel body g
    ("for " ++ initS ++ "; " ++ testS ++ "; " ++ updateS ++ " " ++ bodyS, g)
  | fuel + 1, .forOfStatement left right body _, g =>
    let varName := match left with | .mk n _ _ _ _ _ => n
    let (collection, g) := emitExpr fuel right g
    let (bodyS, g) := emitStmt fuel body g
    ("for _, " ++ varName ++ " := range " ++ collection ++ " " ++ bodyS, g)
  | fuel + 1, .tryStatement block handler finalizer _, g =>
    if g.options.errorHandling == "panic" then
      let result := "func() \x7b\n"
      let g := g.increaseIndent
      let (result, g) :=
        match finalizer with
        | some fin =>
          let (finS, g) := emitBlockStatement fuel fin g
          (result ++ g.indent ++ "defer func() " ++ finS ++ "\n", g)
        | none => (result, g)
      let (result, g) :=
        match handler with
        | some (.mk hbody hparam _) =>
          let result := result ++ g.indent ++ "defer func() \x7b\n"
          let g := g.increaseIndent
          let result := result ++ g.indent ++ "if r := recover(); r != nil \x7b\n"
          let g := g.increaseIndent
          let result := result ++
            (match hparam with
             | some (.mk pn _ _ _ _ _) => g.indent ++ pn ++ " := r\n"
             | none => "")
          let (handlerBody, g) := emitBlockStatement fuel hbody g
          let result := result ++ g.indent ++ handlerBody ++ "\n"
          let g := g.decreaseIndent
          let result := result ++ g.indent ++ "\x7d\n"
          let g := g.decreaseIndent
          let result := result ++ g.indent ++ "\x7d()\n"
          (result, g)
        | none => (result, g)
      let (blockS, g) := emitBlockStatement fuel block g
      let result := result ++ blockS
      let g := g.decreaseIndent
      (result ++ "\n\x7d()", g)
    else
      let result := "// TODO: Convert try/catch to error handling\n"
      let (blockS, g) := emitBlockStatement fuel block g
      (result ++ blockS, g)
  | fuel + 1, .throwStatement argument _, g =>
    let (argS, g) := emitExpr fuel argument g
    if g.options.errorHandling == "panic" then ("panic(" ++ argS ++ ")", g)
    else ("return " ++ argS, g)
  | fuel + 1, .switchStatement discriminant cases _, g =>
    let (discS, g) := emitExpr fuel discriminant g
    let result := "switch " ++ discS ++ " \x7b\n"
    let g := g.increaseIndent
    let (casesS, g) := emitSwitchCases fuel cases g
    let g := g.decreaseIndent
    (result ++ casesS ++ g.indent ++ "\x7d", g)
  | fuel + 1, .importDeclaration _, g => ("", g)
  | fuel + 1, .exportDeclaration (.mk declaration _ _ _ _), g =>
    (match declaration with
     | some d => emitStmt fuel d g
     | none => ("", g))
termination_by structural a1 a2 a3 => a1

/-- The statement loop shared by `visitBlockStatement` and function
bodies: skip statements that emit nothing. -/
def emitStmtLines : Nat → List Stmt → GenState → String × GenState
  | 0, _, g => ("", g)
  | fuel + 1, [], g => ("", g)
  | fuel + 1, s :: rest, g =>
    let (stmtCode, g) := emitStmt fuel s g
    let line := if stmtCode != "" then g.indent ++ stmtCode ++ "\n" else ""
    let (restS, g) := emitStmtLines fuel rest g
    (line ++ restS, g)
termination_by structural a1 a2 a3 => a1

/-- `visitBlockStatement`. -/
def emitBlockStatement : Nat → BlockStmt → GenState → String × GenState
  | 0, _, g => ("", g)
  | fuel + 1, .mk statements _, g =>
    let g := g.increaseIndent
    let (body, g) := emitStmtLines fuel statements g
    let g := g.decreaseIndent
    ("\x7b\n" ++ body ++ g.indent ++ "\x7d", g)
termination_by structural a1 a2 a3 => a1

/-- `visitSwitchCase` over the case list. -/
def emitSwitchCases : Nat → List SwitchCase → GenState → String × GenState
  | 0, _, g => ("", g)
  | fuel + 1, [], g => ("", g)
  | fuel + 1, .mk consequent test _ :: rest, g =>
    let (head, g) :=
      match test with
      | some t =>
        let (tS, g) := emitExpr fuel t g
        (g.indent ++ "case " ++ tS ++ ":\n", g)
      | none => (g.indent ++ "default:\n", g)
    let g := g.increaseIndent
    let (body, g) := emitCaseStmts fuel consequent g
    let g := g.decreaseIndent
    let (restS, g) := emitSwitchCases fuel rest g
    (head ++ body ++ restS, g)
termination_by structural a1 a2 a3 => a1

/-- The consequent loop of `visitSwitchCase` (no empty-code skipping). -/
def emitCaseStmts : Nat → List Stmt → GenState → String × GenState
  | 0, _, g => ("", g)
  | fuel + 1, [], g => ("", g)
  | fuel + 1, s :: rest, g =>
    let (sS, g) := emitStmt fuel s g
    let (restS, g) := emitCaseStmts fuel rest g
    (g.indent ++ sS ++ "\n" ++ restS, g)
termination_by structural a1 a2 a3 => a1

/-- `visitVariableDeclaration`. -/
def emitVariableDeclaration : Nat → VariableDeclaration → GenState → String × GenState
  | 0, _, g => ("", g)
  | fuel + 1, .mk name0 type none _ modifiers _, g =>
    let name := exportName name0 (hasModifier modifiers "export")
    let (tupleTypeDef, g) :=
      match type with
      | some (.tupleType elements _) =>
        let (typeName, g) := registerTupleType fuel elements g
        generateTupleTypeInline fuel typeName g
      | _ => ("", g)
    (match type with
     | some ty =>
       let (typeName, g) := emitType fuel ty g
       (tupleTypeDef ++ "var " ++ name ++ " " ++ typeName, g)
     | none => (tupleTypeDef ++ "var " ++ name ++ " interface\x7b\x7d", g))
  | fuel + 1, .mk name0 type (some init0) _ modifiers _, g =>
    let name := exportName name0 (hasModifier modifiers "export")
    let (tupleTypeDef, g) :=
      match type with
      | some (.tupleType elements _) =>
        let (typeName, g) := registerTupleType fuel elements g
        generateTupleTypeInline fuel typeName g
      | _ => ("", g)
    let shouldInferType :=
      match type with
      | none => true
      | some (.primitiveType "any" _) =>
        let looksLikeExplicitAny := jsTestAnyI ["any", "unknown", "value"] name
        (match init0 with
         | .literal _ _ _ => !looksLikeExplicitAny
         | _ => false)
      | some _ => false
    if shouldInferType then
      let (init, g) := emitExpr fuel init0 g
      (tupleTypeDef ++ "var " ++ name ++ " = " ++ init, g)
    else
      (match type with
       | some ty =>
         let (typeName, g) := emitType fuel ty g
         (match ty, init0 with
          | .tupleType _ _, .arrayExpression elements _ _ =>
            let (elementList, g) := emitOptElements fuel elements g
            let initS := typeName ++ "\x7b" ++ String.intercalate ", " elementList ++ "\x7d"
            (tupleTypeDef ++ "var " ++ name ++ " = " ++ initS, g)
          | .arrayType elementType _, .arrayExpression elements _ _ =>
            let (elementTypeS, g) := emitType fuel elementType g
            let (elementList, g) := emitOptElements fuel elements g
            let initS := "[]" ++ elementTypeS ++ "\x7b" ++
              String.intercalate ", " elementList ++ "\x7d"
            (tupleTypeDef ++ "var " ++ name ++ " = " ++ initS, g)
          | .typeReference "Array" typeArguments _, .arrayExpression elements _ _ =>
            let (elementTypeS, g) :=
              match typeArguments with
              | some (t0 :: _) => emitType fuel t0 g
              | _ => ("interface\x7b\x7d", g)
            let (elementList, g) := emitOptElements fuel elements g
            let initS := "[]" ++ elementTypeS ++ "\x7b" ++
              String.intercalate ", " elementList ++ "\x7d"
            (tupleTypeDef ++ "var " ++ name ++ " = " ++ initS, g)
          | _, otherInit =>
            let (initS, g) := emitExpr fuel otherInit g
            (tupleTypeDef ++ "var " ++ name ++ " " ++ typeName ++ " = " ++ initS, g))
       -- unreachable: an absent type with an initializer infers above
       | none => (tupleTypeDef ++ "var " ++ name ++ " interface\x7b\x7d", g))
termination_by structural a1 a2 a3 => a1

/-- `visitFunctionDeclaration`. -/
def emitFunctionDeclaration : Nat → String → List Parameter →
    Option IRType → Option BlockStmt → Option (List TypeParameter) →
    List Modifier → GenState → String × GenState
  | 0, _, _, _, _, _, _, g => ("", g)
  | fuel + 1, name0, parameters, returnType, body, typeParameters, modifiers, g =>
    let name := exportName name0 (hasModifier modifiers "export")
    let isAsync := hasModifier modifiers "async"
    let (typeParams, g) := emitTypeParamsBracket fuel typeParameters g
    let (paramList, g) := emitParamsList fuel parameters g
    let params := String.intercalate ", " paramList
    let (params, g) :=
      if isAsync then
        let g := { g with needsContext := true }
        let g := g.addImport "context"
        ("ctx context.Context" ++ (if params != "" then ", " ++ params else ""), g)
      else (params, g)
    let (returnTypeS, g) :=
      match returnType with
      | some rt =>
        let (s1, g) := emitType fuel rt g
        if s1 != "" then
          let (s2, g) := emitType fuel rt g
          ((if isAsync then "(" ++ s2 ++ ", error)" else s2), g)
        else (if isAsync then "error" else "", g)
      | none => (if isAsync then "error" else "", g)
    let signature := "func " ++ name ++ typeParams ++ "(" ++ params ++ ")" ++
      (if returnTypeS != "" then " " ++ returnTypeS else "")
    match body with
    | some (.mk statements _) =>
      let (defaultInits, g) := emitDefaultInits fuel parameters g
      let result := "\x7b\n"
      let g := g.increaseIndent
      let result := result ++
        String.join (defaultInits.map fun init => g.indent ++ init ++ "\n")
      let (bodyS, g) := emitStmtLines fuel statements g
      let result := result ++ bodyS
      let g := g.decreaseIndent
      let result := result ++ g.indent ++ "\x7d"
      (signature ++ " " ++ result, g)
    | none => (signature, g)
termination_by structural a1 a2 a3 a4 a5 a6 a7 a8 => a1

/-- Default-parameter guard statements of `visitFunctionDeclaration`. -/
def emitDefaultInits : Nat → List Parameter → GenState → List String × GenState
  | 0, _, g => ([], g)
  | fuel + 1, [], g => ([], g)
  | fuel + 1, .mk pname ptype _ (some dflt) _ _ :: rest, g =>
    let (paramType, g) := emitTypeOrIface fuel ptype g
    let (defaultValue, g) := emitExpr fuel dflt g
    let init :=
      if paramType == "string" then
        "if " ++ pname ++ " == \"\" \x7b\n\t\t" ++ pname ++ " = " ++ defaultValue ++ "\n\t\x7d"
      else if jsStartsWith paramType "*" then
        "if " ++ pname ++ " == nil \x7b\n\t\tval := " ++ defaultValue ++ "\n\t\t" ++
          pname ++ " = &val\n\t\x7d"
      else
        "if " ++ pname ++ " == 0 \x7b\n\t\t" ++ pname ++ " = " ++ defaultValue ++ "\n\t\x7d"
    let (restS, g) := emitDefaultInits fuel rest g
    (init :: restS, g)
  | fuel + 1, _ :: rest, g => emitDefaultInits fuel rest g
termination_by structural a1 a2 a3 => a1

/-- String-enum member lines. -/
def emitEnumStringMembers : Nat → String → List EnumMember → GenState →
    String × GenState
  | 0, _, _, g => ("", g)
  | fuel + 1, name, [], g => ("", g)
  | fuel + 1, name, .mk mname value _ :: rest, g =>
    let memberName := name ++ capitalize mname
    let (valueS, g) :=
      match value with
      | some v => emitExpr fuel v g
      | none => ("\"" ++ mname ++ "\"", g)
    let line := g.indent ++ memberName ++ " " ++ name ++ " = " ++ valueS ++ "\n"
    let (restS, g) := emitEnumStringMembers fuel name rest g
    (line ++ restS, g)
termination_by structural a1 a2 a3 a4 => a1

/-- Numeric-enum member lines (`iota` for a value-less first member). -/
def emitEnumNumericMembers : Nat → String → List EnumMember → Nat → GenState →
    String × GenState
  | 0, _, _, _, g => ("", g)
  | fuel + 1, name, [], _, g => ("", g)
  | fuel + 1, name, .mk mname value _ :: rest, i, g =>
    let memberName := name ++ capitalize mname
    let (line, g) :=
      if i == 0 then
        match value with
        | some v =>
          let (vS, g) := emitExpr fuel v g
          (g.indent ++ memberName ++ " " ++ name ++ " = " ++ vS ++ "\n", g)
        | none => (g.indent ++ memberName ++ " " ++ name ++ " = iota\n", g)
      else
        match value with
        | some v =>
          let (vS, g) := emitExpr fuel v g
          (g.indent ++ memberName ++ " " ++ name ++ " = " ++ vS ++ "\n", g)
        | none => (g.indent ++ memberName ++ "\n", g)
    let (restS, g) := emitEnumNumericMembers fuel name rest (i + 1) g
    (line ++ restS, g)
termination_by structural a1 a2 a3 a4 a5 => a1

/-- `visitClassDeclaration`. -/
def emitClassDeclaration : Nat → String → List ClassMember →
    Option IRType → Option (List TypeParameter) → List Modifier → GenState →
    String × GenState
  | 0, _, _, _, _, _, g => ("", g)
  | fuel + 1, name0, members, extendsClause, typeParameters, modifiers, g =>
    let name := exportName name0 (hasModifier modifiers "export")
    let g := { g with
      currentClassName := name
      privateFieldNames := privateInstanceFieldNames members
      fieldTypeMap := [] }
    let (typeParams, g) := emitTypeParamsBracket fuel typeParameters g
    let staticProperties := members.filter fun m =>
      isPropertyMember m && hasModifier (memberModifiers m) "static"
    let instanceProperties := members.filter fun m =>
      isPropertyMember m && !(hasModifier (memberModifiers m) "static")
    let staticMethods := members.filter fun m =>
      !isPropertyMember m && hasModifier (memberModifiers m) "static"
    let instanceMethods := members.filter fun m =>
      !isPropertyMember m && !(hasModifier (memberModifiers m) "static")
    let result := "type " ++ name ++ typeParams ++ " struct \x7b\n"
    let (result, g) :=
      match extendsClause with
      | some ext =>
        let g := g.increaseIndent
        let ind := g.indent
        let (extS, g) := emitType fuel ext g
        let g := g.decreaseIndent
        (result ++ ind ++ extS ++ "\n", g)
      | none => (result, g)
    let g := g.increaseIndent
    let (fields, g) := emitStructFieldInfos fuel instanceProperties g
    let maxLen := (fields.map (fun f => f.1.length)).foldl max 0
    let paddingWidth := if fields.length == 1 then 0 else max (maxLen + 1) 10
    let fieldLines := fields.map fun f =>
      if fields.length == 1 then g.indent ++ f.1 ++ " " ++ f.2 ++ "\n"
      else g.indent ++ jsPadEnd f.1 paddingWidth ++ f.2 ++ "\n"
    let g := g.decreaseIndent
    let result := result ++ String.join fieldLines ++ "\x7d"
    let (result, g) :=
      if staticProperties.length > 0 then
        let (spLines, g) := emitStaticPropLines fuel name staticProperties g
        (result ++ "\n\n" ++ spLines, g)
      else (result, g)
    let (ctor, g) := generateConstructor fuel name members extendsClause g
    let result :=
      if ctor != "" then
        result ++ "\n\n" ++ ctor ++
          (if instanceMethods.length > 0 || staticMethods.length > 0 then "\n" else "")
      else result
    let (staticS, g) :=
      emitStaticMethodsLoop fuel name staticMethods (instanceMethods.length > 0) g
    let result := result ++ staticS
    let (methodsS, g) := emitMethodsLoop fuel name instanceMethods g
    (result ++ methodsS, g)
termination_by structural a1 a2 a3 a4 a5 a6 a7 => a1

/-- `generateConstructor`. -/
def generateConstructor : Nat → String → List ClassMember →
    Option IRType → GenState → String × GenState
  | 0, _, _, _, g => ("", g)
  | fuel + 1, className, members, extendsClause, g =>
    let allProperties := members.filter isPropertyMember
    let properties := allProperties.filter fun p =>
      !(hasModifier (memberModifiers p) "static")
    let constructorParams := properties.filter metaIsCtorParam
    let constructorMethod := findConstructorMethod members
    if constructorParams.length == 0 && constructorMethod.isNone &&
        extendsClause.isNone then ("", g)
    else if properties.length == 0 then ("", g)
    else
      let ctorStmts := ctorBodyStmtsOf members
      let (bodyKeys, g) := buildBodyInitKeys fuel ctorStmts 0 [] g
      let superIdx := findSuperCallIdx ctorStmts
      let hasSuper := superIdx.isSome
      let (allParams, g) :=
        if hasSuper && constructorMethod.isSome then
          emitCtorParamsFromMethod fuel (ctorMethodParams members) g
        else
          emitCtorParamsFromProps fuel constructorParams g
      let params := String.intercalate ", " allParams
      let result := "func New" ++ className ++ "(" ++ params ++ ") *" ++
        className ++ " \x7b\n"
      let superArgs := match superIdx with
        | some i => superArgsAt ctorStmts i
        | none => []
      let result := result ++
        (if hasSuper && extendsClause.isSome then
          match superArgs.find? (fun a =>
              match a with
              | .identifier nm _ => nm == "email"
              | _ => false) with
          | some (.identifier nm _) => g.indent ++ "\temailPtr := &" ++ nm ++ "\n"
          | _ => ""
        else "")
      let result := result ++ g.indent ++ "\treturn &" ++ className ++ "\x7b\n"
      let maxFieldNameLen :=
        (properties.map fun p =>
          let isPrivate := hasModifier (memberModifiers p) "private"
          let fieldName := if isPrivate then memberName p else capitalize (memberName p)
          fieldName.length).foldl max 0
      let (maxFieldNameLen, g) :=
        if hasSuper && extendsClause.isSome then
          match extendsClause with
          | some ext =>
            let (parentClassName, g) := emitType fuel ext g
            (max maxFieldNameLen parentClassName.length, g)
          | none => (maxFieldNameLen, g)
        else (maxFieldNameLen, g)
      let initPaddingWidth := max (maxFieldNameLen + 1 + 1) 11
      let (result, g) :=
        if hasSuper && extendsClause.isSome then
          match extendsClause, superIdx with
          | some ext, some si =>
            let (parentClassName, g) := emitType fuel ext g
            let (parentArgs, g) := emitParentArgsAt fuel ctorStmts si g
            let parentInit := "*New" ++ parentClassName ++ "(" ++
              String.intercalate ", " parentArgs ++ ")"
            let nameWithColon := parentClassName ++ ":"
            let paddedName := jsPadEnd nameWithColon initPaddingWidth
            let g := g.increaseIndent.increaseIndent
            let line := g.indent ++ paddedName ++ parentInit ++ ",\n"
            let g := g.decreaseIndent.decreaseIndent
            (result ++ line, g)
          | _, _ => (result, g)
        else (result, g)
      let (propsS, g) := emitCtorProps fuel properties ctorStmts bodyKeys initPaddingWidth g
      let result := result ++ propsS
      (result ++ g.indent ++ "\t\x7d\n" ++ g.indent ++ "\x7d", g)
termination_by structural a1 a2 a3 a4 a5 => a1

/-- The `bodyInitializations` scan of `generateConstructor`: records, per
property key, the index of the last `this.x = expr` statement; keys of
non-identifier properties are emitted with the current state, exactly as
`assignment.left.property.accept(this)` does. -/
def buildBodyInitKeys : Nat → List Stmt → Nat → List (String × Nat) → GenState →
    List (String × Nat) × GenState
  | 0, _, _, acc, g => (acc, g)
  | fuel + 1, [], _, acc, g => (acc, g)
  | fuel + 1, s :: rest, i, acc, g =>
    match s with
    | .expressionStatement
        (.assignmentExpression _
          (.memberExpression (.identifier "this" _) property _ _ _) _ _) _ =>
      let (propName, g) :=
        match property with
        | .identifier nm _ => (nm, g)
        | p => emitExpr fuel p g
      buildBodyInitKeys fuel rest (i + 1) (alistSet acc propName i) g
    | _ => buildBodyInitKeys fuel rest (i + 1) acc g
termination_by structural a1 a2 a3 a4 a5 => a1

/-- Emit the right-hand side of the recorded `this.x = expr` statement at
the given index. -/
def emitBodyInitAt : Nat → List Stmt → Nat → GenState → String × GenState
  | 0, _, _, g => ("", g)
  | fuel + 1, [], _, g => ("", g)
  | fuel + 1, s :: _, 0, g =>
    (match s with
     | .expressionStatement (.assignmentExpression _ _ right _) _ => emitExpr fuel right g
     | _ => ("", g))
  | fuel + 1, _ :: rest, n + 1, g => emitBodyInitAt fuel rest n g
termination_by structural a1 a2 a3 a4 => a1

/-- Emit the `super(...)` arguments at the given statement index
(`emailPtr` replaces an identifier named `email`; other expressions are
emitted). -/
def emitParentArgsAt : Nat → List Stmt → Nat → GenState → List String × GenState
  | 0, _, _, g => ([], g)
  | fuel + 1, [], _, g => ([], g)
  | fuel + 1, s :: _, 0, g =>
    (match s with
     | .expressionStatement (.superExpression args _) _ => emitSuperArgsList fuel args g
     | _ => ([], g))
  | fuel + 1, _ :: rest, n + 1, g => emitParentArgsAt fuel rest n g
termination_by structural a1 a2 a3 a4 => a1

/-- The `parentArgs` loop body. -/
def emitSuperArgsList : Nat → List Expr → GenState → List String × GenState
  | 0, _, g => ([], g)
  | fuel + 1, [], g => ([], g)
  | fuel + 1, a :: rest, g =>
    let (s, g) :=
      match a with
      | .identifier nm _ => (if nm == "email" then "emailPtr" else nm, g)
      | e => emitExpr fuel e g
    let (restS, g) := emitSuperArgsList fuel rest g
    (s :: restS, g)
termination_by structural a1 a2 a3 => a1

/-- The property-initialization loop of `generateConstructor`. -/
def emitCtorProps : Nat → List ClassMember → List Stmt → List (String × Nat) → Nat →
    GenState → String × GenState
  | 0, _, _, _, _, g => ("", g)
  | fuel + 1, [], _, _, _, g => ("", g)
  | fuel + 1, prop :: rest, ctorStmts, bodyKeys, w, g =>
    match prop with
    | .propertyMember pname _ pinit pmods pIsCtorParam _ _ =>
      let isPrivate := hasModifier pmods "private"
      let fieldName := if isPrivate then pname else capitalize pname
      let paramName := if isPrivate then pname else jsToLower pname
      let (line, g) :=
        if pIsCtorParam then
          let g := g.increaseIndent.increaseIndent
          let line := g.indent ++ jsPadEnd (fieldName ++ ":") w ++ paramName ++ ",\n"
          let g := g.decreaseIndent.decreaseIndent
          (line, g)
        else
          match pinit with
          | some init =>
            let g := g.increaseIndent.increaseIndent
            let ind := g.indent
            let (initS, g) := emitExpr fuel init g
            let g := g.decreaseIndent.decreaseIndent
            (ind ++ jsPadEnd (fieldName ++ ":") w ++ initS ++ ",\n", g)
          | none =>
            match alistGet bodyKeys pname with
            | some idx =>
              let g := g.increaseIndent.increaseIndent
              let ind := g.indent
              let (initS, g) := emitBodyInitAt fuel ctorStmts idx g
              let g := g.decreaseIndent.decreaseIndent
              (ind ++ jsPadEnd (fieldName ++ ":") w ++ initS ++ ",\n", g)
            | none => ("", g)
      let (restS, g) := emitCtorProps fuel rest ctorStmts bodyKeys w g
      (line ++ restS, g)
    | .methodMember .. =>
      -- unreachable: the caller passes property members only
      emitCtorProps fuel rest ctorStmts bodyKeys w g
termination_by structural a1 a2 a3 a4 a5 a6 => a1

/-- The instance-method loop of `visitClassDeclaration`. -/
def emitMethodsLoop : Nat → String → List ClassMember → GenState →
    String × GenState
  | 0, _, _, g => ("", g)
  | fuel + 1, className, [], g => ("", g)
  | fuel + 1, className, m :: rest, g =>
    let (s, g) := generateMethod fuel className m g
    let (restS, g) := emitMethodsLoop fuel className rest g
    ("\n\n" ++ s ++ restS, g)
termination_by structural a1 a2 a3 a4 => a1

/-- `generateMethod`. -/
def generateMethod : Nat → String → ClassMember → GenState →
    String × GenState
  | 0, _, _, g => ("", g)
  | fuel + 1, className, m, g =>
    match m with
    | .methodMember mname parameters returnType body typeParameters modifiers _ =>
      let isStatic := hasModifier modifiers "static"
      let isAsync := hasModifier modifiers "async"
      let methodName := exportName mname (!hasModifier modifiers "private")
      if mname == "constructor" then ("", g)
      else
        let receiverName := jsToLower (jsCharAt0 className)
        let (receiver, g) :=
          if !isStatic then
            let receiverType :=
              if g.options.usePointerReceivers then "*" ++ className else className
            ("(" ++ receiverName ++ " " ++ receiverType ++ ") ",
             { g with currentReceiverName := receiverName })
          else ("", g)
        let (typeParams, g) := emitTypeParamsBracket fuel typeParameters g
        let (paramList, g) := emitParamsList fuel parameters g
        let params := String.intercalate ", " paramList
        let (params, g) :=
          if isAsync then
            let g := { g with needsContext := true }
            let g := g.addImport "context"
            ("ctx context.Context" ++ (if params != "" then ", " ++ params else ""), g)
          else (params, g)
        let (returnTypeS, g) :=
          match returnType with
          | some rt =>
            let (s1, g) := emitType fuel rt g
            if s1 != "" then
              let (baseReturnType, g) := emitType fuel rt g
              let baseReturnType :=
                if baseReturnType == "float64" &&
                    (match rt with
                     | .primitiveType "number" _ => true
                     | _ => false) then
                  match body with
                  | some (.mk stmts _) =>
                    (match extractReturnedFieldName stmts with
                     | some fld =>
                       if mapGet g.fieldTypeMap fld == some "int" then "int"
                       else baseReturnType
                     | none => baseReturnType)
                  | none => baseReturnType
                else baseReturnType
              ((if isAsync then "(" ++ baseReturnType ++ ", error)" else baseReturnType), g)
            else (if isAsync then "error" else "", g)
          | none => (if isAsync then "error" else "", g)
        let signature := "func " ++ receiver ++ methodName ++ typeParams ++ "(" ++
          params ++ ")" ++ (if returnTypeS != "" then " " ++ returnTypeS else "")
        (match body with
         | some b =>
           let (bodyS, g) := emitBlockStatement fuel b g
           let g := { g with currentReceiverName := "" }
           (signature ++ " " ++ bodyS, g)
         | none =>
           let g := { g with currentReceiverName := "" }
           (signature, g))
    | .propertyMember .. => ("", g)
termination_by structural a1 a2 a3 a4 => a1

/-- The static-method loop of `visitClassDeclaration`, with its newline
separators. -/
def emitStaticMethodsLoop : Nat → String → List ClassMember → Bool →
    GenState → String × GenState
  | 0, _, _, _, g => ("", g)
  | fuel + 1, className, [], _, g => ("", g)
  | fuel + 1, className, m :: rest, hasInstanceMethods, g =>
    let (s, g) := generateStaticMethod fuel className m g
    let sep := if rest.length > 0 || hasInstanceMethods then "\n" else ""
    let (restS, g) := emitStaticMethodsLoop fuel className rest hasInstanceMethods g
    ("\n\n" ++ s ++ sep ++ restS, g)
termination_by structural a1 a2 a3 a4 a5 => a1

/-- `generateStaticMethod`. -/
def generateStaticMethod : Nat → String → ClassMember → GenState →
    String × GenState
  | 0, _, _, g => ("", g)
  | fuel + 1, className, m, g =>
    match m with
    | .methodMember mname parameters returnType body typeParameters modifiers _ =>
      let isAsync := hasModifier modifiers "async"
      let methodName := capitalize mname
      let baseMethodName := stripGetPrefix methodName
      let functionName := "Get" ++ className ++ baseMethodName
      let (typeParams, g) := emitTypeParamsBracket fuel typeParameters g
      let (paramList, g) := emitParamsList fuel parameters g
      let params := String.intercalate ", " paramList
      let (params, g) :=
        if isAsync then
          let g := { g with needsContext := true }
          let g := g.addImport "context"
          ("ctx context.Context" ++ (if params != "" then ", " ++ params else ""), g)
        else (params, g)
      let (returnTypeS, g) :=
        match returnType with
        | some rt =>
          let (s1, g) := emitType fuel rt g
          if s1 != "" then
            let (baseReturnType, g) := emitType fuel rt g
            let baseReturnType :=
              if baseReturnType == className then "*" ++ baseReturnType
              else baseReturnType
            ((if isAsync then "(" ++ baseReturnType ++ ", error)" else baseReturnType), g)
          else (if isAsync then "error" else "", g)
        | none => (if isAsync then "error" else "", g)
      let signature := "func " ++ functionName ++ typeParams ++ "(" ++ params ++ ")" ++
        (if returnTypeS != "" then " " ++ returnTypeS else "")
      (match body with
       | some b =>
         let (bodyS, g) := staticBlock fuel className b g
         (signature ++ " " ++ bodyS, g)
       | none => (signature, g))
    | .propertyMember .. => ("", g)
termination_by structural a1 a2 a3 a4 => a1

/-- `visitBlockStatementStatic`. -/
def staticBlock : Nat → String → BlockStmt → GenState → String × GenState
  | 0, _, _, g => ("", g)
  | fuel + 1, className, .mk statements _, g =>
    let g := g.increaseIndent
    let (body, g) := staticStmtLines fuel className statements g
    let g := g.decreaseIndent
    ("\x7b\n" ++ body ++ g.indent ++ "\x7d", g)
termination_by structural a1 a2 a3 a4 => a1

/-- The statement loop of `visitBlockStatementStatic`. -/
def staticStmtLines : Nat → String → List Stmt → GenState →
    String × GenState
  | 0, _, _, g => ("", g)
  | fuel + 1, className, [], g => ("", g)
  | fuel + 1, className, s :: rest, g =>
    let (stmtCode, g) := staticStmt fuel className s g
    let line := if stmtCode != "" then g.indent ++ stmtCode ++ "\n" else ""
    let (restS, g) := staticStmtLines fuel className rest g
    (line ++ restS, g)
termination_by structural a1 a2 a3 a4 => a1

/-- `visitStatementStatic`. -/
def staticStmt : Nat → String → Stmt → GenState → String × GenState
  | 0, _, _, g => ("", g)
  | fuel + 1, className, .ifStatement test consequent alternate _, g =>
    staticIf fuel className test consequent alternate g
  | fuel + 1, className, .expressionStatement e _, g => staticExpr fuel className e g
  | fuel + 1, className, .returnStatement argument _, g =>
    (match argument with
     | some a =>
       let (s, g) := staticExpr fuel className a g
       ("return " ++ s, g)
     | none => ("return", g))
  | fuel + 1, className, s, g => emitStmt fuel s g
termination_by structural a1 a2 a3 a4 => a1

/-- `visitIfStatementStatic`.  The source casts the branches to
`BlockStatement` unchecked (a non-block branch would crash it); non-block
branches are routed through `visitStatementStatic` here. -/
def staticIf : Nat → String → Expr → Stmt → Option Stmt → GenState →
    String × GenState
  | 0, _, _, _, _, g => ("", g)
  | fuel + 1, className, test, consequent, alternate, g =>
    let (testExpr, g) := staticExpr fuel className test g
    let (consequentS, g) :=
      match consequent with
      | .blockStatement b => staticBlock fuel className b g
      | s => emitStmt fuel s g
    let result := "if " ++ testExpr ++ " " ++ consequentS
    match alternate with
    | some (.ifStatement t2 c2 a2 _) =>
      let (altS, g) := staticIf fuel className t2 c2 a2 g
      (result ++ " else " ++ altS, g)
    | some (.blockStatement b) =>
      let (altS, g) := staticBlock fuel className b g
      (result ++ " else " ++ altS, g)
    | some s =>
      let (altS, g) := emitStmt fuel s g
      (result ++ " else " ++ altS, g)
    | none => (result, g)
termination_by structural a1 a2 a3 a4 a5 a6 => a1

/-- `visitExpressionStatic`. -/
def staticExpr : Nat → String → Expr → GenState → String × GenState
  | 0, _, _, g => ("", g)
  | fuel + 1, className, .memberExpression (.identifier onm oloc) property computed _ _, g =>
    if onm == className then
      let (propertyS, g) :=
        match property with
        | .identifier pn _ => (pn, g)
        | p => emitExpr fuel p g
      (jsToLower className ++ capitalize propertyS, g)
    else
      let (obj, g) := staticExpr fuel className (.identifier onm oloc) g
      let (prop, g) :=
        match property with
        | .identifier pn _ => (capitalize pn, g)
        | p => staticExpr fuel className p g
      (if computed then obj ++ "[" ++ prop ++ "]" else obj ++ "." ++ prop, g)
  | fuel + 1, className, .memberExpression object property computed _ _, g =>
    let (obj, g) := staticExpr fuel className object g
    let (prop, g) :=
      match property with
      | .identifier pn _ => (capitalize pn, g)
      | p => staticExpr fuel className p g
    (if computed then obj ++ "[" ++ prop ++ "]" else obj ++ "." ++ prop, g)
  | fuel + 1, className, .unaryExpression op argument isPre _, g =>
    let (argTransformed, g) := staticExpr fuel className argument g
    if op == "!" &&
        (match argument with
         | .memberExpression .. => true
         | _ => false) then
      (argTransformed ++ " == nil", g)
    else if isPre then (op ++ argTransformed, g)
    else (argTransformed ++ op, g)
  | fuel + 1, className, .newExpression callee args _ _, g =>
    let (calleeS, g) := emitExpr fuel callee g
    let (argList, g) := staticExprList fuel className args g
    let argsS := String.intercalate ", " argList
    if calleeS == className then
      ("&" ++ calleeS ++ "\x7bcount: 0\x7d", g)
    else
      ("&" ++ calleeS ++ "\x7b" ++ argsS ++ "\x7d", g)
  | fuel + 1, className, .binaryExpression op left right _, g =>
    let (l, g) := staticExpr fuel className left g
    let (r, g) := staticExpr fuel className right g
    let opC := if op == "===" then "==" else if op == "!==" then "!=" else op
    (l ++ " " ++ opC ++ " " ++ r, g)
  | fuel + 1, className, .assignmentExpression op left right _, g =>
    let (l, g) := staticExpr fuel className left g
    let (r, g) := staticExpr fuel className right g
    (l ++ " " ++ op ++ " " ++ r, g)
  | fuel + 1, className, .identifier nm _, g =>
    if nm == "undefined" || nm == "nil" then ("nil", g) else (nm, g)
  | fuel + 1, className, .literal value _ _, g =>
    if value == JsValue.vNull || value == JsValue.vUndefined then ("nil", g)
    else
      (match value with
       | .vStr s => ("\"" ++ s ++ "\"", g)
       | v => (v.jsString, g))
  | fuel + 1, className, e, g => emitExpr fuel e g
termination_by structural a1 a2 a3 a4 => a1

/-- The argument loop of the static `new` rewriting. -/
def staticExprList : Nat → String → List Expr → GenState →
    List String × GenState
  | 0, _, _, g => ([], g)
  | fuel + 1, className, [], g => ([], g)
  | fuel + 1, className, e :: rest, g =>
    let (s, g) := staticExpr fuel className e g
    let (restS, g) := staticExprList fuel className rest g
    (s :: restS, g)
termination_by structural a1 a2 a3 a4 => a1

end

/-! ## Module emission (`visitModule`, `generate`) -/

/-- A statement the module emitter skips: an expression statement whose
expression is an assignment. -/
def isSkippedStmt : Stmt → Bool
  | .expressionStatement (.assignmentExpression _ _ _ _) _ => true
  | _ => false

/-- Declaration kind classification of `visitModule`. -/
def declTypeOf : Stmt → String
  | .variableDeclaration _ => "var"
  | .functionDeclaration _ _ _ _ _ _ _ => "func"
  | .classDeclaration _ _ _ _ _ _ _ => "type"
  | .interfaceDeclaration _ _ _ _ _ _ => "type"
  | .typeAliasDeclaration _ _ _ _ _ => "type"
  | .enumDeclaration _ _ _ _ _ => "type"
  | _ => "other"

/-- The per-declaration record of `visitModule`'s second pass. -/
structure DeclInfo where
  code : String
  type : String
  originalIndex : Nat
  hadSkippedAfter : Bool

/-- `visitModule`'s first and second passes: skip assignment expression
statements, emit the rest, drop empty output, and record whether skipped
statements immediately follow. -/
def collectDecls (fuel : Nat) : List Stmt → Nat → GenState → List DeclInfo × GenState
  | [], _, g => ([], g)
  | s :: rest, i, g =>
    if isSkippedStmt s then collectDecls fuel rest (i + 1) g
    else
      let (code, g) := emitStmt fuel s g
      if jsTrim code == "" then collectDecls fuel rest (i + 1) g
      else
        let hadSkippedAfter :=
          match rest with
          | r :: _ => isSkippedStmt r
          | [] => false
        let (ds, g) := collectDecls fuel rest (i + 1) g
        ({ code := code, type := declTypeOf s, originalIndex := i,
           hadSkippedAfter := hadSkippedAfter } :: ds, g)

/-- The scalar-type test `/^(string|float64|bool|int|interface\{\})$/`. -/
def isScalarTypeName (t : String) : Bool :=
  t == "string" || t == "float64" || t == "bool" || t == "int" ||
    t == "interface\x7b\x7d"

/-- The blank-line separator placed between two consecutive declarations
(`visitModule`, third pass). -/
def declSeparator (d next : DeclInfo) : String :=
  if d.hadSkippedAfter then "\n\n"
  else
    let isCurrentSimpleVar := d.type == "var" && !(jsIncludes d.code "\n\n")
    let isNextSimpleVar := next.type == "var" && !(jsIncludes next.code "\n\n")
    if d.type != next.type then "\n\n"
    else if d.type == "func" || d.type == "type" then "\n\n"
    else if isCurrentSimpleVar != isNextSimpleVar then "\n\n"
    else if !isCurrentSimpleVar && !isNextSimpleVar then "\n\n"
    else
      match jsMatchVar d.code, jsMatchVar next.code with
      | some (currentName, currentExplicitType), some (nextName, nextExplicitType) =>
        let currentIsScalar :=
          match currentExplicitType with
          | some t => isScalarTypeName t
          | none => false
        let nextIsScalar :=
          match nextExplicitType with
          | some t => isScalarTypeName t
          | none => false
        let currentIsInferred := jsIncludes d.code " = " && !jsMatchesTypedAssign d.code
        let nextIsInferred := jsIncludes next.code " = " && !jsMatchesTypedAssign next.code
        let currentIsArray := jsIncludes d.code "= []"
        let nextIsArray := jsIncludes next.code "= []"
        let currentIsAnyUnknown := jsTestAnyI ["any", "unknown"] currentName &&
          currentExplicitType == some "interface\x7b\x7d"
        let nextIsAnyUnknown := jsTestAnyI ["any", "unknown"] nextName &&
          nextExplicitType == some "interface\x7b\x7d"
        if currentIsAnyUnknown || nextIsAnyUnknown then "\n\n"
        else if currentIsScalar && nextIsInferred then "\n\n"
        else if currentIsInferred && nextIsScalar then "\n\n"
        else if (currentIsScalar && nextIsScalar) ||
            (currentIsInferred && nextIsInferred && !currentIsArray && !nextIsArray) ||
            (currentIsArray && nextIsArray) then "\n"
        else "\n\n"
      | _, _ => "\n\n"

/-- `visitModule`'s third pass. -/
def renderDecls : List DeclInfo → String
  | [] => ""
  | [d] => d.code
  | d :: next :: rest => d.code ++ declSeparator d next ++ renderDecls (next :: rest)

/-- `visitModule`. -/
def visitModule (fuel : Nat) (m : Module) (g : GenState) : String × GenState :=
  let result := "package " ++ g.currentPackage ++ "\n\n"
  let (declarations, g) := collectDecls fuel m.statements 0 g
  let result := result ++ generateImports g
  let result := result ++ renderDecls declarations
  let result :=
    if result.length > 0 && !(jsEndsWith result "\n") then result ++ "\n" else result
  (result, g)

/-- `generate`: reset the per-module state, then emit. -/
def generate (fuel : Nat) (m : Module) (g : GenState) : String × GenState :=
  let g := g.reset
  visitModule fuel m g

/-! ## Concrete inputs used by the verification -/

/-- A fixed source location for concrete inputs. -/
def cLoc : SourceLocation := ⟨"input.ts", 1, 1⟩

/-- `function g() {}` — used only through `f`. -/
def c1gDecl : Stmt :=
  .functionDeclaration "g" [] none (some (.mk [] none)) none [] none

/-- `function f() { g() }` — unused, but keeps `g` alive for one pass. -/
def c1fDecl : Stmt :=
  .functionDeclaration "f" [] none
    (some (.mk [.expressionStatement
      (.callExpression (.identifier "g" none) [] none none) none] none))
    none [] none

/-- A module whose only use of `g` sits inside the dead function `f`. -/
def c1Module : Module :=
  { name := "m", path := "m.ts", statements := [c1fDecl, c1gDecl],
    imports := [], exports := [], loc := none }

/-- A module whose sole tuple type occurs in parameter position:
`function f(p: [string]) {}`. -/
def c2Module : Module :=
  { name := "m", path := "m.ts",
    statements :=
      [.functionDeclaration "f"
        [.mk "p" (some (.tupleType [.primitiveType "string" none] none))
          false none false none]
        none (some (.mk [] none)) none [] none],
    imports := [], exports := [], loc := none }

/-- A module containing `a === 'x===y'` as an expression statement. -/
def c4Module : Module :=
  { name := "m", path := "m.ts",
    statements :=
      [.expressionStatement
        (.binaryExpression "===" (.identifier "a" none)
          (.literal (.vStr "x===y") "'x===y'" none) none) none],
    imports := [], exports := [], loc := none }

/-- `type R = string | number`. -/
def c5Alias : Stmt :=
  .typeAliasDeclaration "R"
    (.unionType [.primitiveType "string" none, .primitiveType "number" none] none)
    none [] none

/-- `type V = string | never-mind` — a union with exactly one arm. -/
def c6Alias : Stmt :=
  .typeAliasDeclaration "V" (.unionType [.primitiveType "string" none] none)
    none [] none

/-- A module that reads `x.count` before declaring
`class C { private count: number = 0 }`. -/
def c9Module : Module :=
  { name := "m", path := "m.ts",
    statements :=
      [.expressionStatement
        (.memberExpression (.identifier "x" none) (.identifier "count" none)
          false false none) none,
       .classDeclaration "C"
         [.propertyMember "count" (some (.primitiveType "number" none))
           (some (.literal (.vNum ⟨"0", true⟩) "0" none)) [⟨"private"⟩]
           false false none]
         none none none [] none],
    imports := [], exports := [], loc := none }

/-- `class Counter { static bump() { x = 1 } }`. -/
def c10Class : Stmt :=
  .classDeclaration "Counter"
    [.methodMember "bump" [] none
      (some (.mk [.expressionStatement
        (.assignmentExpression "=" (.identifier "x" none)
          (.literal (.vNum ⟨"1", true⟩) "1" none) none) none] none))
      none [⟨"static"⟩] none]
    none none none [] none

/-- `x = 1` with no declared type. -/
def c7d1 : TsVarDecl :=
  .mk (.ident "x") none (some (.numericLiteral ⟨"1", true⟩ cLoc)) cLoc

/-- `y: string` with no initializer. -/
def c7d2 : TsVarDecl :=
  .mk (.ident "y") (some (.stringKeyword cLoc)) none cLoc

/-- The lowering of `c7d1`. -/
def c7s1 : Stmt :=
  .variableDeclaration (.mk "x" (some (.primitiveType "any" none))
    (some (.literal (.vNum ⟨"1", true⟩) "1" (some cLoc))) false [] (some cLoc))

/-- The lowering of `c7d2`. -/
def c7s2 : Stmt :=
  .variableDeclaration (.mk "y" (some (.primitiveType "string" (some cLoc)))
    none false [] (some cLoc))

/-! ## Helper lemmas -/

theorem string_empty_append (s : String) : "" ++ s = s := by
  cases s with
  | mk d => show String.mk ([] ++ d) = String.mk d; rw [List.nil_append]

theorem setAdd_mem (l : List String) (x : String) : x ∈ setAdd l x := by
  by_cases h : x ∈ l <;> simp_all [setAdd]

/-- The type-emission family never touches the set of already generated
tuple definitions. -/
theorem emitFamily_gtt : ∀ (fuel : Nat),
    (∀ t g, ((emitType fuel t g).2).generatedTupleTypes = g.generatedTupleTypes) ∧
    (∀ l g, ((emitTypeList fuel l g).2).generatedTupleTypes = g.generatedTupleTypes) ∧
    (∀ l g, ((emitObjectFields fuel l g).2).generatedTupleTypes = g.generatedTupleTypes) ∧
    (∀ l g, ((emitFuncTypeParams fuel l g).2).generatedTupleTypes = g.generatedTupleTypes) ∧
    (∀ l g, ((generateTupleTypeName fuel l g).2).generatedTupleTypes = g.generatedTupleTypes) ∧
    (∀ l g, ((registerTupleType fuel l g).2).generatedTupleTypes = g.generatedTupleTypes) := by
  intro fuel
  induction fuel with
  | zero =>
    refine ⟨?_, ?_, ?_, ?_, ?_, ?_⟩ <;> intros <;>
      simp [emitType, emitTypeList, emitObjectFields, emitFuncTypeParams,
        generateTupleTypeName, registerTupleType]
  | succ n ih =>
    obtain ⟨ih1, ih2, ih3, ih4, ih5, ih6⟩ := ih
    refine ⟨?_, ?_, ?_, ?_, ?_, ?_⟩
    · intro t g
      cases t <;>
        simp [emitType, ih1, ih2, ih3, ih4, ih5, ih6, GenState.addImport] <;>
        (repeat' split) <;> simp_all [GenState.addImport, ih1, ih2]
    · intro l g
      cases l <;> simp [emitTypeList, ih1, ih2]
    · intro l g
      cases l with
      | nil => simp [emitObjectFields]
      | cons p ps => cases p; simp [emitObjectFields, ih1, ih3]
    · intro l g
      cases l with
      | nil => simp [emitFuncTypeParams]
      | cons p ps =>
        cases p with
        | mk nm ty opt dv rst lc =>
          cases ty <;> simp [emitFuncTypeParams, ih1, ih4] <;>
            (repeat' split) <;> simp_all [ih1, ih4]
    · intro l g
      simp [generateTupleTypeName, ih2]
    · intro l g
      simp only [registerTupleType]
      split <;> simp [ih5] <;> (repeat' split) <;> simp_all [ih5]

theorem emitTupleFieldLines_gtt (fuel : Nat) (els : List IRType) (i : Nat)
    (g : GenState) :
    ((emitTupleFieldLines fuel els i g).2).generatedTupleTypes =
      g.generatedTupleTypes := by
  induction els generalizing i g with
  | nil => simp [emitTupleFieldLines]
  | cons t ts ih => simp [emitTupleFieldLines, (emitFamily_gtt fuel).1, ih]

/-! ## The claims -/

/-- C1: a single run of the dead-code-elimination pass filters the
top-level statements once, against the used-symbol set collected from the
whole input module: the output statements form a sublist of the input, and
a statement survives exactly when it is a non-declaration or a declaration
that is used or exported.  (The pass does not iterate to a fixed point; see
the counterexample.) -/
theorem c1_dce_single_filter (m : Module) (stmt : Stmt)
    (h : stmt ∈ m.statements) :
    ((dceRun m).statements.Sublist m.statements) ∧
    (stmt ∈ (dceRun m).statements ↔
      (match stmt.declInfo with
       | some (nm, mods) =>
         ((collectUsedSymbols m).contains nm || isExportedDecl mods) = true
       | none => True)) := by
  constructor
  · simp only [dceRun]
    exact List.filter_sublist _
  · simp only [dceRun, List.mem_filter]
    match hd : stmt.declInfo with
    | some (nm, mods) => simp [hd, h]
    | none => simp [hd, h]

/-- C1 witness: in `c1Module`, the declaration of `g` is kept by the first
run because the (dead) function `f` still uses it. -/
theorem c1_dce_single_filter_witness :
    ((dceRun c1Module).statements.Sublist c1Module.statements) ∧
    (c1gDecl ∈ (dceRun c1Module).statements ↔
      (match c1gDecl.declInfo with
       | some (nm, mods) =>
         ((collectUsedSymbols c1Module).contains nm || isExportedDecl mods) = true
       | none => True)) :=
  c1_dce_single_filter c1Module c1gDecl
    (List.mem_cons_of_mem _ (List.mem_cons_self _ _))

/-- C2: each interned tuple name is emitted at most once —
`generateTupleTypeInline` run twice in a row for the same name always
produces the empty string the second time — and the canonical name applies
the `[]`→`Array` and `*`→`Ptr` simplifications.  (A tuple shape that occurs
only outside a variable declaration never reaches `generateTupleTypeInline`
and gets no definition at all; see the counterexample.) -/
theorem c2_tuple_interned_once (fuel : Nat) (g : GenState) (typeName : String) :
    (generateTupleTypeInline fuel typeName
        ((generateTupleTypeInline fuel typeName g).2)).1 = "" ∧
    (generateTupleTypeName (fuel + 5)
        [IRType.primitiveType "string" none,
         IRType.arrayType (IRType.primitiveType "number" none) none] {}).1 =
      "Tuple2_string_Arrayfloat64" := by
  constructor
  · by_cases h1 : typeName ∈ g.generatedTupleTypes
    · simp [generateTupleTypeInline, h1]
    · match h2 : alistGet g.tupleTypes typeName with
      | none => simp [generateTupleTypeInline, h1, h2]
      | some elements =>
        simp [generateTupleTypeInline, h1, h2, emitTupleFieldLines_gtt, setAdd_mem]
  · rfl

/-- C3: the emitted import block is rendered from a sorted permutation of
the recorded import set in which every recorded package appears exactly
once. -/
theorem c3_imports_sorted_once (g : GenState) (h : g.imports.Nodup)
    (p : String) (hp : p ∈ g.imports) :
    ∃ l : List String,
      l.Pairwise (fun a b => a ≤ b) ∧ List.count p l = 1 ∧
      generateImports g =
        (if g.imports.length == 0 then ""
         else if l.length == 1 then "import \"" ++ l.headI ++ "\"\n\n"
         else "import (\n" ++
           String.intercalate "\n"
             (l.map (fun pkg => "\t\"" ++ pkg ++ "\"")) ++
           "\n)\n\n") := by
  refine ⟨g.imports.mergeSort (fun a b => a ≤ b), ?_, ?_, rfl⟩
  · have hs := @List.sorted_mergeSort String (fun a b => decide (a ≤ b))
      (fun a b c hab hbc => by
        simp only [decide_eq_true_eq] at *
        exact le_trans hab hbc)
      (fun a b => by
        simp only [Bool.or_eq_true, decide_eq_true_eq]
        exact le_total a b)
      g.imports
    exact hs.imp (fun hab => of_decide_eq_true hab)
  · have hperm : (g.imports.mergeSort (fun a b => a ≤ b)).Perm g.imports :=
      List.mergeSort_perm g.imports _
    rw [hperm.count_eq]
    exact List.count_eq_one_of_mem h hp

/-- C3 witness: a generator state holding the imports `time` and `fmt`. -/
theorem c3_imports_sorted_once_witness :
    ∃ l : List String,
      l.Pairwise (fun a b => a ≤ b) ∧ List.count "fmt" l = 1 ∧
      generateImports { imports := ["time", "fmt"] } =
        (if ({ imports := ["time", "fmt"] } : GenState).imports.length == 0 then ""
         else if l.length == 1 then "import \"" ++ l.headI ++ "\"\n\n"
         else "import (\n" ++
           String.intercalate "\n"
             (l.map (fun pkg => "\t\"" ++ pkg ++ "\"")) ++
           "\n)\n\n") :=
  c3_imports_sorted_once { imports := ["time", "fmt"] } (by decide) "fmt" (by decide)

/-- C7: every identifier-named declarator of a variable statement becomes
one IR variable declaration that keeps the `const` flag and always carries
a type (`Primitive any` when none was written); with two or more
declarators the declarations are wrapped in a single `BlockStatement`, not
emitted as separate top-level statements. -/
theorem c7_declarators_block (declarations : List TsVarDecl) (isConst : Bool)
    (modifiers : List String) (s : Stmt)
    (h : s ∈ transformVarDeclList declarations isConst modifiers) :
    (∃ nm ty ini dloc,
        TsVarDecl.mk (.ident nm) ty ini dloc ∈ declarations ∧
        s = .variableDeclaration (.mk nm (some (transformTypeNode ty))
              (match ini with
               | some e => some (transformExpression e)
               | none => none)
              isConst (getModifiersIR modifiers) (some dloc))) ∧
    (2 ≤ (transformVarDeclList declarations isConst modifiers).length →
      transformVariableStatement declarations isConst modifiers =
        .blockStatement (.mk (transformVarDeclList declarations isConst modifiers) none)) := by
  constructor
  · induction declarations with
    | nil => simp [transformVarDeclList] at h
    | cons d rest ih =>
      obtain ⟨bn, ty, ini, dloc⟩ := d
      cases bn with
      | ident nm =>
        rw [transformVarDeclList.eq_def] at h
        simp only [List.mem_cons] at h
        rcases h with heq | hrest
        · exact ⟨nm, ty, ini, dloc, List.mem_cons_self _ _, heq⟩
        · obtain ⟨nm', ty', ini', dloc', hmem, hs⟩ := ih hrest
          exact ⟨nm', ty', ini', dloc', List.mem_cons_of_mem _ hmem, hs⟩
      | pattern =>
        rw [transformVarDeclList.eq_def] at h
        obtain ⟨nm', ty', ini', dloc', hmem, hs⟩ := ih h
        exact ⟨nm', ty', ini', dloc', List.mem_cons_of_mem _ hmem, hs⟩
  · intro h2
    match hl : transformVarDeclList declarations isConst modifiers with
    | [] => simp [hl] at h2
    | [d] => simp [hl] at h2
    | a :: b :: t => simp only [transformVariableStatement, hl]

/-- C7 witness: the two declarators of `var x = 1, y: string` produce the
two declarations of `c7_counterexample`, the first of which keeps the
mutable flag and carries `Primitive any`. -/
theorem c7_declarators_block_witness :
    (∃ nm ty ini dloc,
        TsVarDecl.mk (.ident nm) ty ini dloc ∈ [c7d1, c7d2] ∧
        c7s1 = .variableDeclaration (.mk nm (some (transformTypeNode ty))
              (match ini with
               | some e => some (transformExpression e)
               | none => none)
              false (getModifiersIR []) (some dloc))) ∧
    (2 ≤ (transformVarDeclList [c7d1, c7d2] false []).length →
      transformVariableStatement [c7d1, c7d2] false [] =
        .blockStatement (.mk (transformVarDeclList [c7d1, c7d2] false []) none)) :=
  c7_declarators_block [c7d1, c7d2] false [] c7s1
    (by simp [transformVarDeclList, c7d1, c7d2, c7s1, transformTypeNode,
      transformExpression, getModifiersIR])

/-- C7 counterexample: lowering `var x = 1, y: string` yields ONE
`BlockStatement` wrapping both declarations (not two separate top-level
statements), and the untyped `x` receives the type `Primitive any` rather
than no type. -/
theorem c7_counterexample :
    transformStatement (.variableStatement [c7d1, c7d2] false [] cLoc) =
      some (.blockStatement (.mk [c7s1, c7s2] none)) := by
  simp [transformStatement, transformVariableStatement, transformVarDeclList,
    c7d1, c7d2, c7s1, c7s2, transformTypeNode, transformTypeNodeCore,
    transformExpression, getModifiersIR]

/-- C8: lowering never aborts, and unsupported expressions become the
placeholder `Identifier("unknown")` carrying the construct's source
location; unsupported statements, however, are silently dropped —
`transformStatement` yields `null` and the statement loop skips them. -/
theorem c8_unsupported_constructs (loc : SourceLocation) (rest : List TsStmt) :
    transformExpression (.unsupportedExpression loc) =
      .identifier "unknown" (some loc) ∧
    transformStatement (.unsupportedStatement loc) = none ∧
    transformStmtList (.unsupportedStatement loc :: rest) =
      transformStmtList rest := by
  refine ⟨?_, ?_, ?_⟩ <;>
    simp [transformExpression, transformStatement, transformStmtList]

/-- C8 counterexample: an unsupported statement produces no placeholder at
all — it is silently dropped from the lowered statement list. -/
theorem c8_counterexample :
    transformStatement (.unsupportedStatement cLoc) = none ∧
    transformTopLevel [.unsupportedStatement cLoc] = [] := by
  constructor <;>
    simp [transformStatement, transformTopLevel, transformStmtList]

/-- C9: the emitter is deterministic up to the state that `reset` clears:
two runs on the same module agree whenever the fields `reset` does not
clear (options, package, indent string, class context, private-field and
field-type tables) agree at entry.  (`reset` does not clear the class
context tables, so runs from different histories can differ; see the
counterexample.) -/
theorem c9_reset_determinism (fuel : Nat) (m : Module) (g g' : GenState)
    (h1 : g.indentStr = g'.indentStr) (h2 : g.options = g'.options)
    (h3 : g.currentPackage = g'.currentPackage)
    (h4 : g.currentReceiverName = g'.currentReceiverName)
    (h5 : g.currentClassName = g'.currentClassName)
    (h6 : g.privateFieldNames = g'.privateFieldNames)
    (h7 : g.fieldTypeMap = g'.fieldTypeMap) :
    generate fuel m g = generate fuel m g' := by
  have hr : g.reset = g'.reset := by
    cases g; cases g'; simp_all [GenState.reset]
  simp [generate, hr]

/-- C9 witness: a run from a dirtied-but-cleared state agrees with a run
from the pristine state. -/
theorem c9_reset_determinism_witness :
    generate 100 c9Module
        { indentLevel := 7, imports := ["os"], needsContext := true } =
      generate 100 c9Module {} :=
  c9_reset_determinism 100 c9Module _ _ rfl rfl rfl rfl rfl rfl rfl

/-- C10: in the regular emission paths an expression statement whose
expression is an assignment emits nothing — the statement visitor returns
the empty string with the state unchanged, and the statement-line loop of
blocks and bodies therefore contributes no line for it at any depth.  (The
static-method path does emit assignments; see the counterexample.) -/
theorem c10_assignments_dropped (fuel : Nat) (op : String) (l r : Expr)
    (eloc sloc : Option SourceLocation) (g : GenState) (rest : List Stmt) :
    emitStmt (fuel + 1)
        (.expressionStatement (.assignmentExpression op l r eloc) sloc) g =
      ("", g) ∧
    emitStmtLines (fuel + 2)
        (.expressionStatement (.assignmentExpression op l r eloc) sloc :: rest) g =
      emitStmtLines (fuel + 1) rest g := by
  exact ⟨rfl, rfl⟩

/-- C4: the emitter collapses the operators of binary expressions:
`===` is emitted exactly as `==` and `!==` exactly as `!=`, in the regular
visitor and in the static-method visitor alike. -/
theorem c4_operator_collapse (fuel : Nat) (cn : String) (l r : Expr)
    (loc : Option SourceLocation) (g : GenState) :
    emitExpr (fuel + 1) (.binaryExpression "===" l r loc) g =
      emitExpr (fuel + 1) (.binaryExpression "==" l r loc) g ∧
    emitExpr (fuel + 1) (.binaryExpression "!==" l r loc) g =
      emitExpr (fuel + 1) (.binaryExpression "!=" l r loc) g ∧
    staticExpr (fuel + 1) cn (.binaryExpression "===" l r loc) g =
      staticExpr (fuel + 1) cn (.binaryExpression "==" l r loc) g ∧
    staticExpr (fuel + 1) cn (.binaryExpression "!==" l r loc) g =
      staticExpr (fuel + 1) cn (.binaryExpression "!=" l r loc) g := by
  exact ⟨rfl, rfl, rfl, rfl⟩

/-- C1 counterexample: one run of DCE on `c1Module` keeps `g`, a second
run removes it, so running the pass twice does not produce the same IR as
one run. -/
theorem c1_counterexample :
    ((dceRun (dceRun c1Module)).statements.length ==
      (dceRun c1Module).statements.length) = false := by decide

/-- C2 counterexample: in `c2Module` the tuple `[string]` occurs only as a
parameter type; the emitted module references the interned name
`Tuple1_string` but contains no definition of it. -/
theorem c2_counterexample :
    jsIncludes (generate 100 c2Module {}).1 "Tuple1_string" = true ∧
    occCount (generate 100 c2Module {}).1 "type Tuple1_string struct" = 0 :=
  ⟨by decide, by decide⟩

/-- C4 counterexample: the module `a === 'x===y'` emits `a == "x===y"`,
so the three-character sequence `===` still appears in emitted output
(inside the string literal), refuting the output-wide ban. -/
theorem c4_counterexample :
    jsIncludes (generate 100 c4Module {}).1 "===" = true := by decide

/-- C5: under the default tagged strategy, the alias `type R = string |
number` produces a record with `tag int` and one pointer field `value{i}`
per arm, plus `IsType{i}`/`AsType{i}` helpers for each arm — and nothing
else: no `NewRFromArm{i}` constructors are generated. -/
theorem c5_tagged_shape :
    (emitStmt 100 c5Alias {}).1 =
      "type R struct \x7b\n\ttag int\n\tvalue0 *string\n\tvalue1 *float64\n\x7d\n\n" ++
      "func (u R) IsType0() bool \x7b return u.tag == 0 \x7d\n" ++
      "func (u R) AsType0() string \x7b\n\tif u.value0 != nil \x7b return *u.value0 \x7d\n" ++
      "\tvar zero string\n\treturn zero\n\x7d\n\n" ++
      "func (u R) IsType1() bool \x7b return u.tag == 1 \x7d\n" ++
      "func (u R) AsType1() float64 \x7b\n\tif u.value1 != nil \x7b return *u.value1 \x7d\n" ++
      "\tvar zero float64\n\treturn zero\n\x7d" := by decide

/-- C5 counterexample: the tagged form for `type R = string | number`
contains the `IsType0` helper but no `NewR…` constructor of any kind. -/
theorem c5_counterexample :
    jsIncludes (emitStmt 100 c5Alias {}).1 "IsType0" = true ∧
    jsIncludes (emitStmt 100 c5Alias {}).1 "NewR" = false :=
  ⟨by decide, by decide⟩

/-- C6: a type alias whose union has exactly one arm still receives the
full tagged wrapper (`tag int`, `value0`, `IsType0`, `AsType0`); no
collapse to the arm's type happens. -/
theorem c6_one_arm_still_tagged :
    (emitStmt 100 c6Alias {}).1 =
      "type V struct \x7b\n\ttag int\n\tvalue0 *string\n\x7d\n\n" ++
      "func (u V) IsType0() bool \x7b return u.tag == 0 \x7d\n" ++
      "func (u V) AsType0() string \x7b\n\tif u.value0 != nil \x7b return *u.value0 \x7d\n" ++
      "\tvar zero string\n\treturn zero\n\x7d" := by decide

/-- C6 counterexample: the one-arm alias `type V = string` emits a record
containing `tag int` — a tagged wrapper — rather than collapsing to
`string`. -/
theorem c6_counterexample :
    jsIncludes (emitStmt 100 c6Alias {}).1 "tag int" = true := by decide

/-- C9 counterexample: running the emitter twice in sequence on `c9Module`
yields different outputs (`x.Count` then `x.count`), because `reset` does
not clear `privateFieldNames` and the second run still sees `count` as a
private field of the previous run's class. -/
theorem c9_counterexample :
    ((generate 100 c9Module ((generate 100 c9Module {}).2)).1 ==
      (generate 100 c9Module {}).1) = false := by decide

/-- C10 counterexample: inside a static method body the assignment `x = 1`
IS emitted — `class Counter { static bump() { x = 1 } }` produces a
function whose body contains `x = 1`. -/
theorem c10_counterexample :
    jsIncludes (emitStmt 100 c10Class {}).1 "x = 1" = true := by decide
